import Mathlib

/-!
Gatekeeper network layer (`lib/net.c`, `include/gatekeeper_net.h`).

A shallow embedding of the network bring-up code of Gatekeeper.

* Every call into DPDK / the C library is recorded, in order, in a trace of
  `HwCall` values.
* What such a call answers is decided by an environment `Env`: a function of
  the calls made so far and of the call being made.  Nothing is assumed about
  the environment unless a theorem says so.
* C `goto` clean-up labels become the tail of the function they belong to.
-/

namespace Gatekeeper

/-! ## Constants -/

/-- The macro `NUM_ATTEMPTS_LINK_GET` (net.c:31-32), documented there as the
number of attempts to wait for a link to come up. -/
def NUM_ATTEMPTS_LINK_GET : Nat := 5

/-- DPDK: `ETH_RSS_RETA_SIZE_512`. -/
def ETH_RSS_RETA_SIZE_512 : Nat := 512

/-- DPDK: `RTE_RETA_GROUP_SIZE`. -/
def RTE_RETA_GROUP_SIZE : Nat := 64

/-- The macro `GATEKEEPER_RETA_MAX_SIZE` (net.c:41):
`ETH_RSS_RETA_SIZE_512 / RTE_RETA_GROUP_SIZE`. -/
def GATEKEEPER_RETA_MAX_SIZE : Nat := ETH_RSS_RETA_SIZE_512 / RTE_RETA_GROUP_SIZE

/-- Linux `errno.h`: `ENOTSUP`. -/
def ENOTSUP : Int := 95

/-- Linux `errno.h`: `EINVAL`. -/
def EINVAL : Int := 22

/-- The macro `GATEKEEPER_QUEUE_UNALLOCATED` (gatekeeper_net.h:88): `INT16_MIN`. -/
def GATEKEEPER_QUEUE_UNALLOCATED : Int := -32768

/-- DPDK: `BONDING_MODE_ROUND_ROBIN`. -/
def BONDING_MODE_ROUND_ROBIN : Nat := 0

/-- The value `~0LL` stored in a 64-bit mask: all 64 bits set. -/
def MASK_ALL : Nat := 2 ^ 64 - 1

/-! ## Data model -/

/-- DPDK `struct rte_eth_rss_reta_entry64`: one group of 64 redirection-table
entries and the mask that selects which of them are to be written. -/
structure rte_eth_rss_reta_entry64 where
  mask : Nat
  reta : List Nat
deriving DecidableEq, Repr

/-- What reading a group outside the array yields in the model: nothing. -/
def reta_none : rte_eth_rss_reta_entry64 := ⟨0, []⟩

/-- What a call of `rte_free` releases. -/
inductive Freed where
  | ports
  | pci_addr (i : Nat)
  | pci_addrs
  | name
deriving DecidableEq, Repr

/-- A call that leaves net.c: DPDK, the EAL, or the C library. -/
inductive HwCall where
  | rte_eth_dev_info_get (portid : Nat)
  | rte_eth_dev_rss_reta_update (portid : Nat)
      (reta_conf : List rte_eth_rss_reta_entry64) (reta_size : Nat)
  | rte_eth_dev_rss_reta_query (portid : Nat)
      (reta_conf : List rte_eth_rss_reta_entry64) (reta_size : Nat)
  | rte_calloc (tag : String) (num : Nat)
  | rte_free (what : Freed)
  | eal_parse_pci_DomBDF (addr : String)
  | rte_eth_dev_get_port_by_addr (addr : String)
  | rte_eth_dev_configure (port_id nb_rx_q nb_tx_q : Nat)
  | rte_eth_rx_queue_setup (port_id queue numa_node mp : Nat)
  | rte_eth_tx_queue_setup (port_id queue numa_node : Nat)
  | rte_eth_dev_start (port_id : Nat)
  | rte_eth_link_get (port_id : Nat)
  | sleep (seconds : Nat)
  | rte_eth_dev_stop (port_id : Nat)
  | rte_eth_dev_close (port_id : Nat)
  | rte_eth_bond_create (name : Option String) (mode : Nat) (socket_id : Nat)
  | rte_eth_bond_slave_add (bonded_port_id slave_port_id : Nat)
  | rte_eth_bond_slave_remove (bonded_port_id slave_port_id : Nat)
  | rte_eth_bond_free (name : Option String)
  | rte_pktmbuf_pool_create (socket_id : Nat)
  | rte_eth_dev_count
deriving DecidableEq, Repr

/-- The calls made so far, oldest first. -/
abbrev Trace := List HwCall

/-- What a call answers: its `int` return value, and the value it stores
through its output parameter (or the pointer it returns, `0` being `NULL`). -/
structure Resp where
  ret : Int
  out : Nat
deriving DecidableEq, Repr

/-- The world outside net.c: the answer to a call, given the calls made before
it. -/
abbrev Env := Trace → HwCall → Resp

/-! ## `gatekeeper_setup_rss` (net.c:209-282) -/

/-- The state of `reta_conf` after `memset(reta_conf, 0, sizeof(reta_conf))`
(net.c:237): `GATEKEEPER_RETA_MAX_SIZE` groups, all zero. -/
def reta_conf_zero : List rte_eth_rss_reta_entry64 :=
  List.replicate GATEKEEPER_RETA_MAX_SIZE ⟨0, List.replicate RTE_RETA_GROUP_SIZE 0⟩

/-- The local `queue_idx` of the loop body: `i % num_queues` (net.c:242).  In C
the division traps when `num_queues` is `0`, while here `i % 0` is `i`; the
theorems of the claims whose run reaches the loop assume `1 ≤ num_queues`. -/
def queue_idx (i num_queues : Nat) : Nat := i % num_queues

/-- One iteration of the loop body (net.c:240-246).  `queues` is a
`uint16_t *`, so the cast `(uint16_t)queues[queue_idx]` changes nothing. -/
def reta_set (reta_conf : List rte_eth_rss_reta_entry64) (queues : List Nat)
    (num_queues i : Nat) : List rte_eth_rss_reta_entry64 :=
  let idx := i / RTE_RETA_GROUP_SIZE
  let shift := i % RTE_RETA_GROUP_SIZE
  let g := reta_conf.getD idx reta_none
  reta_conf.set idx
    { mask := MASK_ALL, reta := g.reta.set shift (queues.getD (queue_idx i num_queues) 0) }

/-- The table built by
`for (i = 0; i < dev_info.reta_size; i++) { ... }` (net.c:237-247). -/
def setup_reta (reta_size : Nat) (queues : List Nat) (num_queues : Nat) :
    List rte_eth_rss_reta_entry64 :=
  (List.range reta_size).foldl (fun conf i => reta_set conf queues num_queues i)
    reta_conf_zero

/-- Bucket `i` of a table: entry `i % 64` of group `i / 64`. -/
def reta_bucket (reta_conf : List rte_eth_rss_reta_entry64) (i : Nat) : Nat :=
  ((reta_conf.getD (i / RTE_RETA_GROUP_SIZE) reta_none).reta).getD (i % RTE_RETA_GROUP_SIZE) 0

/-- Whether the mask of its group selects bucket `i` for writing. -/
def reta_selected (reta_conf : List rte_eth_rss_reta_entry64) (i : Nat) : Bool :=
  Nat.testBit (reta_conf.getD (i / RTE_RETA_GROUP_SIZE) reta_none).mask
    (i % RTE_RETA_GROUP_SIZE)

/-- The function `gatekeeper_setup_rss(portid, queues, num_queues)`
(net.c:209-282): the returned `int` and
the trace extended by the calls made. -/
def gatekeeper_setup_rss (env : Env) (portid : Nat) (queues : List Nat)
    (num_queues : Nat) (tr : Trace) : Int × Trace :=
  let c0 := HwCall.rte_eth_dev_info_get portid
  let reta_size := (env tr c0).out
  let tr0 := tr ++ [c0]
  if reta_size = 0 then (-1, tr0)
  else if reta_size > ETH_RSS_RETA_SIZE_512 then (-1, tr0)
  else
    let reta_conf := setup_reta reta_size queues num_queues
    let c1 := HwCall.rte_eth_dev_rss_reta_update portid reta_conf reta_size
    let ret1 := (env tr0 c1).ret
    let tr1 := tr0 ++ [c1]
    if ret1 = -ENOTSUP then (-1, tr1)
    else if ret1 = -EINVAL then (-1, tr1)
    else
      let c2 := HwCall.rte_eth_dev_rss_reta_query portid reta_conf reta_size
      let ret2 := (env tr1 c2).ret
      let tr2 := tr1 ++ [c2]
      if ret2 = -ENOTSUP then (-1, tr2)
      else if ret2 = -EINVAL then (-1, tr2)
      else (ret2, tr2)

/-- A table in the shape `memset` leaves it: eight groups of 64 entries. -/
def reta_shape (conf : List rte_eth_rss_reta_entry64) : Prop :=
  conf.length = GATEKEEPER_RETA_MAX_SIZE ∧
    ∀ g, g < GATEKEEPER_RETA_MAX_SIZE → (conf.getD g reta_none).reta.length = RTE_RETA_GROUP_SIZE


/-! ## Interfaces and the network configuration (gatekeeper_net.h) -/

/-- The lcore layout the EAL reports. -/
structure Platform where
  /-- The value of `rte_lcore_count()`. -/
  lcore_count : Nat
  /-- The function `rte_lcore_to_socket_id`. -/
  socket_of : Nat → Nat
  /-- The lcores `RTE_LCORE_FOREACH_SLAVE` visits, in order. -/
  slave_lcores : List Nat

/-- The `struct gatekeeper_if` of gatekeeper_net.h:34-76.  A pointer field is
`none` when it is `NULL`. -/
structure gatekeeper_if where
  pci_addrs : Option (List String)
  num_ports : Nat
  name : Option String
  num_rx_queues : Nat
  num_tx_queues : Nat
  ports : Option (List Nat)
  id : Nat
  rx_queues : List Int
  tx_queues : List Int
  rx_queue_id : Int
  tx_queue_id : Int
deriving DecidableEq, Repr

/-- The `struct net_config` of gatekeeper_net.h:100-119, with the two fields
`num_rx_queues` and `num_tx_queues` that net.c reads from it
(net.c:292, 313, 324).  The pool array is `none` when `NULL`; a pool pointer is
`0` when `NULL`. -/
structure net_config where
  front : gatekeeper_if
  back : gatekeeper_if
  num_ports : Nat
  numa_nodes : Nat
  gatekeeper_pktmbuf_pool : Option (List Nat)
  configuring : Int
  num_rx_queues : Nat
  num_tx_queues : Nat
deriving DecidableEq, Repr

/-! ## Tear-down helpers (net.c:136-189) -/

/-- Entry `i` of the `ports` array of an interface. -/
def port_at (iface : gatekeeper_if) (i : Nat) : Nat :=
  (iface.ports.getD []).getD i 0

/-- The function `free_pci_addrs` (net.c:136-144). -/
def free_pci_addrs (iface : gatekeeper_if) (tr : Trace) : gatekeeper_if × Trace :=
  let tr1 := tr ++ (List.range iface.num_ports).map
    (fun i => HwCall.rte_free (Freed.pci_addr i))
  let tr2 := tr1 ++ [HwCall.rte_free Freed.pci_addrs]
  ({ iface with pci_addrs := none }, tr2)

/-- The function `close_iface_id` (net.c:154-167). -/
def close_iface_id (iface : gatekeeper_if) (nb_slave_ports : Nat) (tr : Trace) : Trace :=
  if iface.num_ports = 1 then tr
  else
    let tr1 := tr ++ (List.range nb_slave_ports).map
      (fun i => HwCall.rte_eth_bond_slave_remove iface.id (port_at iface i))
    tr1 ++ [HwCall.rte_eth_bond_free iface.name]

/-- The two calls of one iteration of `close_iface_ports`. -/
def stop_close (iface : gatekeeper_if) (i : Nat) : List HwCall :=
  [HwCall.rte_eth_dev_stop (port_at iface i), HwCall.rte_eth_dev_close (port_at iface i)]

/-- The function `close_iface_ports` (net.c:169-177). -/
def close_iface_ports (iface : gatekeeper_if) (nb_ports : Nat) (tr : Trace) : Trace :=
  tr ++ ((List.range nb_ports).map (stop_close iface)).flatten

/-- The function `close_iface` (net.c:179-189). -/
def close_iface (iface : gatekeeper_if) (tr : Trace) : gatekeeper_if × Trace :=
  let tr1 := close_iface_id iface iface.num_ports tr
  let tr2 := close_iface_ports iface iface.num_ports tr1
  let tr3 := tr2 ++ [HwCall.rte_free Freed.ports]
  let iface1 := { iface with ports := none }
  let (iface2, tr4) := free_pci_addrs iface1 tr3
  let tr5 := tr4 ++ [HwCall.rte_free Freed.name]
  ({ iface2 with name := none }, tr5)

/-! ## `init_port` (net.c:284-381) -/

/-- The queue `(uint16_t)(lcore - 1)` of an `unsigned int lcore` (net.c:311). -/
def queue_of_lcore (lcore : Nat) : Nat :=
  ((lcore + 2 ^ 32 - 1) % 2 ^ 32) % 2 ^ 16

/-- The body of `RTE_LCORE_FOREACH_SLAVE(lcore) { ... }` (net.c:307-333), over
the slave lcores still to visit.  The result is `some ret` when the function
returns `ret` from inside the loop, and `none` when the loop runs to its
end. -/
def setup_queues (env : Env) (plat : Platform) (net_conf : net_config) (port_id : Nat) :
    List Nat → Trace → Option Int × Trace
  | [], tr => (none, tr)
  | lcore :: rest, tr =>
    let numa_node := plat.socket_of lcore
    let mp := (net_conf.gatekeeper_pktmbuf_pool.getD []).getD numa_node 0
    let queue := queue_of_lcore lcore
    let rx : Option Int × Trace :=
      if queue < net_conf.num_rx_queues then
        let c := HwCall.rte_eth_rx_queue_setup port_id queue numa_node mp
        let ret := (env tr c).ret
        if ret < 0 then (some ret, tr ++ [c]) else (none, tr ++ [c])
      else (none, tr)
    match rx with
    | (some ret, tr1) => (some ret, tr1)
    | (none, tr1) =>
      let tx : Option Int × Trace :=
        if queue < net_conf.num_tx_queues then
          let c := HwCall.rte_eth_tx_queue_setup port_id queue numa_node
          let ret := (env tr1 c).ret
          if ret < 0 then (some ret, tr1 ++ [c]) else (none, tr1 ++ [c])
        else (none, tr1)
      match tx with
      | (some ret, tr2) => (some ret, tr2)
      | (none, tr2) => setup_queues env plat net_conf port_id rest tr2

/-- The loop `do { ... } while (true)` of net.c:358-376, and the `return 0`
behind it.  `attempts` is the `uint8_t` counter.  The first argument bounds the
number of iterations the model runs; the result is `none` when it is used
up. -/
def link_loop (env : Env) (port_id : Nat) (wait_for_link : Int) :
    Nat → Nat → Trace → Option (Int × Trace)
  | 0, _, _ => none
  | fuel + 1, attempts, tr =>
    let c := HwCall.rte_eth_link_get port_id
    let link_status := (env tr c).out
    let tr1 := tr ++ [c]
    if link_status ≠ 0 then some (0, tr1)
    else if wait_for_link = 0 ∨ attempts > NUM_ATTEMPTS_LINK_GET then some (-1, tr1)
    else link_loop env port_id wait_for_link fuel ((attempts + 1) % 256)
      (tr1 ++ [HwCall.sleep 1])

/-- The function `init_port` (net.c:284-381).

The parameter `num_succ_ports` is a pointer: `none` is `NULL`, and `some k` is
the address `k` elements past the caller's variable.  The statement
`num_succ_ports++` (net.c:343) advances this local pointer; there is no store
through it anywhere in the function, so the caller's variable keeps its value
and is not part of the result. -/
def init_port (env : Env) (plat : Platform) (fuel : Nat) (net_conf : net_config)
    (port_id : Nat) (num_succ_ports : Option Nat) (wait_for_link : Int) (tr : Trace) :
    Option (Int × Trace) :=
  let c0 := HwCall.rte_eth_dev_configure port_id net_conf.num_rx_queues
    net_conf.num_tx_queues
  let ret0 := (env tr c0).ret
  let tr0 := tr ++ [c0]
  if ret0 < 0 then some (ret0, tr0)
  else
    match setup_queues env plat net_conf port_id plat.slave_lcores tr0 with
    | (some ret, tr1) => some (ret, tr1)
    | (none, tr1) =>
      let c2 := HwCall.rte_eth_dev_start port_id
      let ret2 := (env tr1 c2).ret
      let tr2 := tr1 ++ [c2]
      if ret2 < 0 then some (ret2, tr2)
      else
        let _num_succ_ports := num_succ_ports.map (fun k => k + 1)
        link_loop env port_id wait_for_link fuel 0 tr2

/-! ## `init_iface` (net.c:383-464) -/

/-- The label `close_ports` of `init_iface` (net.c:459-463). -/
def init_iface_close_ports (iface : gatekeeper_if) (num_succ_ports : Nat) (ret : Int)
    (tr : Trace) : Int × gatekeeper_if × Trace :=
  let tr1 := close_iface_ports iface num_succ_ports tr
  let tr2 := tr1 ++ [HwCall.rte_free Freed.ports]
  (ret, { iface with ports := none }, tr2)

/-- The label `close_id` of `init_iface` (net.c:457-463), which falls through
to `close_ports`. -/
def init_iface_close_id (iface : gatekeeper_if) (num_slaves_added num_succ_ports : Nat)
    (ret : Int) (tr : Trace) : Int × gatekeeper_if × Trace :=
  init_iface_close_ports iface num_succ_ports ret
    (close_iface_id iface num_slaves_added tr)

/-- The loop `for (i = 0; i < iface->num_ports; i++)` of net.c:399-423, from
iteration `i` on, with `todo` iterations left.  The Boolean is `false` when the
loop leaves through `goto close_ports`.  Inside the loop `ret` is a variable of
the loop body (net.c:403), not the `ret` of the function.  The address passed
to `init_port` is that of the caller's `num_succ_ports`, offset `0`. -/
def init_iface_loop (env : Env) (plat : Platform) (fuel : Nat) (net_conf : net_config)
    (pci_addrs : List String) :
    Nat → Nat → List Nat → Trace → Option (Bool × List Nat × Trace)
  | 0, _, ports, tr => some (true, ports, tr)
  | todo + 1, i, ports, tr =>
    let addr := pci_addrs.getD i ""
    let c0 := HwCall.eal_parse_pci_DomBDF addr
    let ret0 := (env tr c0).ret
    let tr0 := tr ++ [c0]
    if ret0 < 0 then some (false, ports, tr0)
    else
      let c1 := HwCall.rte_eth_dev_get_port_by_addr addr
      let r1 := env tr0 c1
      let tr1 := tr0 ++ [c1]
      if r1.ret < 0 then some (false, ports, tr1)
      else
        let port_id := r1.out % 256
        let ports1 := ports.set i port_id
        match init_port env plat fuel net_conf port_id (some 0) 0 tr1 with
        | none => none
        | some (ret2, tr2) =>
          if ret2 < 0 then some (false, ports1, tr2)
          else init_iface_loop env plat fuel net_conf pci_addrs todo (i + 1) ports1 tr2

/-- The loop `for (i = 0; i < iface->num_ports; i++)` of net.c:441-449, from
iteration `i` on.  The result is the failing `ret` (`some`, on
`goto close_id`) or `none`, the value of `num_slaves_added`, and the trace. -/
def add_slaves (env : Env) (iface : gatekeeper_if) :
    Nat → Nat → Nat → Trace → Option Int × Nat × Trace
  | 0, _, num_slaves_added, tr => (none, num_slaves_added, tr)
  | todo + 1, i, num_slaves_added, tr =>
    let c := HwCall.rte_eth_bond_slave_add iface.id (port_at iface i)
    let ret := (env tr c).ret
    let tr1 := tr ++ [c]
    if ret < 0 then (some ret, num_slaves_added, tr1)
    else add_slaves env iface todo (i + 1) (num_slaves_added + 1) tr1

/-- The function `init_iface` (net.c:383-464): the returned `int`, the
interface record as left behind, and the trace. -/
def init_iface (env : Env) (plat : Platform) (fuel : Nat) (net_conf : net_config)
    (iface : gatekeeper_if) (tr : Trace) : Option (Int × gatekeeper_if × Trace) :=
  let ret : Int := 0
  let num_succ_ports : Nat := 0
  let num_slaves_added : Nat := 0
  let c0 := HwCall.rte_calloc "ports" iface.num_ports
  let p := (env tr c0).out
  let tr0 := tr ++ [c0]
  if p = 0 then some (-1, { iface with ports := none }, tr0)
  else
    match init_iface_loop env plat fuel net_conf (iface.pci_addrs.getD [])
        iface.num_ports 0 (List.replicate iface.num_ports 0) tr0 with
    | none => none
    | some (false, ports, tr1) =>
      some (init_iface_close_ports { iface with ports := some ports } num_succ_ports ret tr1)
    | some (true, ports, tr1) =>
      let iface1 := { iface with ports := some ports }
      if iface1.num_ports = 1 then
        some (0, { iface1 with id := port_at iface1 0 }, tr1)
      else
        let c2 := HwCall.rte_eth_bond_create iface1.name BONDING_MODE_ROUND_ROBIN 0
        let ret2 := (env tr1 c2).ret
        let tr2 := tr1 ++ [c2]
        if ret2 < 0 then
          some (init_iface_close_ports iface1 num_succ_ports ret2 tr2)
        else
          let iface2 := { iface1 with id := ret2.toNat % 256 }
          match add_slaves env iface2 iface2.num_ports 0 num_slaves_added tr2 with
          | (some ret3, added, tr3) =>
            some (init_iface_close_id iface2 added num_succ_ports ret3 tr3)
          | (none, added, tr3) =>
            match init_port env plat fuel net_conf iface2.id none 1 tr3 with
            | none => none
            | some (ret4, tr4) =>
              if ret4 < 0 then
                some (init_iface_close_id iface2 added num_succ_ports ret4 tr4)
              else some (0, iface2, tr4)

/-! ## `gatekeeper_init_network` and `gatekeeper_free_network` (net.c:466-561) -/

/-- One step of the loop of `find_num_numa_nodes` (net.c:80-82), on `uint32_t`
values. -/
def numa_step (plat : Platform) (nb_numa_nodes i : Nat) : Nat :=
  let socket_id := plat.socket_of i % 2 ^ 32
  if nb_numa_nodes ≤ socket_id then (socket_id + 1) % 2 ^ 32 else nb_numa_nodes

/-- The function `find_num_numa_nodes` (net.c:72-86). -/
def find_num_numa_nodes (plat : Platform) : Nat :=
  (List.range plat.lcore_count).foldl (numa_step plat) 0

/-- The loop `for (i = 0; (uint32_t)i < net_conf->numa_nodes; i++)` of
net.c:491-527, from iteration `i` on.  The Boolean is `false` when a pool
cannot be created (`ret = -1; goto out`). -/
def init_pools (env : Env) : Nat → Nat → List Nat → Trace → Bool × List Nat × Trace
  | 0, _, pool, tr => (true, pool, tr)
  | todo + 1, i, pool, tr =>
    if pool.getD i 0 ≠ 0 then init_pools env todo (i + 1) pool tr
    else
      let c := HwCall.rte_pktmbuf_pool_create i
      let mp := (env tr c).out
      let pool1 := pool.set i mp
      let tr1 := tr ++ [c]
      if mp = 0 then (false, pool1, tr1)
      else init_pools env todo (i + 1) pool1 tr1

/-- The label `close_front` of `gatekeeper_init_network` (net.c:547-551). -/
def init_network_close_front (front : gatekeeper_if) (tr : Trace) : gatekeeper_if × Trace :=
  let tr1 := close_iface_id front front.num_ports tr
  let tr2 := close_iface_ports front front.num_ports tr1
  ({ front with ports := none }, tr2 ++ [HwCall.rte_free Freed.ports])

/-- The part of `gatekeeper_init_network` that follows the allocation of the
pool array (net.c:487-554).  `RTE_ASSERT` compiles to nothing
(net.c:497-499). -/
def init_network_body (env : Env) (plat : Platform) (fuel : Nat) (config : net_config)
    (tr : Trace) : Option (Int × net_config × Trace) :=
  match init_pools env config.numa_nodes 0 (config.gatekeeper_pktmbuf_pool.getD []) tr with
  | (false, pool, tr2) =>
    some (-1, { config with gatekeeper_pktmbuf_pool := some pool }, tr2)
  | (true, pool, tr2) =>
    let config2 := { config with gatekeeper_pktmbuf_pool := some pool }
    let c3 := HwCall.rte_eth_dev_count
    let config3 := { config2 with num_ports := (env tr2 c3).out }
    let tr3 := tr2 ++ [c3]
    match init_iface env plat fuel config3 config3.front tr3 with
    | none => none
    | some (ret4, front, tr4) =>
      let config4 := { config3 with front := front }
      if ret4 < 0 then some (ret4, config4, tr4)
      else
        match init_iface env plat fuel config4 config4.back tr4 with
        | none => none
        | some (ret5, back, tr5) =>
          let config5 := { config4 with back := back }
          if ret5 < 0 then
            let (front1, tr6) := init_network_close_front config5.front tr5
            some (ret5, { config5 with front := front1 }, tr6)
          else some (ret5, config5, tr5)

/-- The function `gatekeeper_init_network` (net.c:467-554), called on the
configuration singleton: `net_conf` is `&config`, so the two are one record and
`net_conf` is not `NULL`. -/
def gatekeeper_init_network (env : Env) (plat : Platform) (fuel : Nat) (config : net_config)
    (tr : Trace) : Option (Int × net_config × Trace) :=
  if config.gatekeeper_pktmbuf_pool = none then
    let numa_nodes := find_num_numa_nodes plat
    let c := HwCall.rte_calloc "mbuf_pool" numa_nodes
    let config0 := { config with numa_nodes := numa_nodes }
    if (env tr c).out = 0 then some (-1, config0, tr ++ [c])
    else
      init_network_body env plat fuel
        { config0 with gatekeeper_pktmbuf_pool := some (List.replicate numa_nodes 0) }
        (tr ++ [c])
  else init_network_body env plat fuel config tr

/-- The function `gatekeeper_free_network` (net.c:556-561), on the
configuration singleton. -/
def gatekeeper_free_network (config : net_config) (tr : Trace) : net_config × Trace :=
  let (back, tr1) := close_iface config.back tr
  let (front, tr2) := close_iface config.front tr1
  ({ config with front := front, back := back }, tr2)

/-! ## Concrete machines used to run the code -/

/-- A machine with one slave lcore on NUMA node 0. -/
def plat_one : Platform := ⟨2, fun _ => 0, [1]⟩

/-- An interface record as `lua_init_iface` leaves it. -/
def mk_iface (name : String) (pci_addrs : List String) : gatekeeper_if :=
  { pci_addrs := some pci_addrs, num_ports := pci_addrs.length, name := some name,
    num_rx_queues := 1, num_tx_queues := 1, ports := none, id := 0,
    rx_queues := [], tx_queues := [], rx_queue_id := 0, tx_queue_id := 0 }

/-- An interface with three physical addresses. -/
def iface_three : gatekeeper_if :=
  mk_iface "front" ["0000:01:00.0", "0000:01:00.1", "0000:01:00.2"]

/-- An interface with one physical address. -/
def iface_single : gatekeeper_if := mk_iface "back" ["0000:02:00.0"]

/-- A configuration with one pool, one RX and one TX queue. -/
def config_one : net_config :=
  { front := iface_three, back := iface_single, num_ports := 0, numa_nodes := 1,
    gatekeeper_pktmbuf_pool := some [7], configuring := 1,
    num_rx_queues := 1, num_tx_queues := 1 }

/-- The port a PCI address maps to on the concrete machines. -/
def port_of_addr (addr : String) : Nat :=
  if addr = "0000:01:00.0" then 0
  else if addr = "0000:01:00.1" then 1
  else if addr = "0000:01:00.2" then 2
  else 3

/-- A machine on which every call succeeds and every link is up; a bonded port
gets the identifier 4. -/
def env_ok : Env := fun _ c =>
  match c with
  | HwCall.rte_calloc _ _ => ⟨0, 1⟩
  | HwCall.rte_eth_dev_get_port_by_addr addr => ⟨0, port_of_addr addr⟩
  | HwCall.rte_eth_link_get _ => ⟨0, 1⟩
  | HwCall.rte_eth_bond_create _ _ _ => ⟨4, 0⟩
  | HwCall.rte_pktmbuf_pool_create _ => ⟨0, 7⟩
  | HwCall.rte_eth_dev_count => ⟨0, 4⟩
  | HwCall.rte_eth_dev_info_get _ => ⟨0, 128⟩
  | _ => ⟨0, 0⟩

/-- As `env_ok`, but port 1 cannot be started (`-ENODEV`). -/
def env_start_fails : Env := fun tr c =>
  match c with
  | HwCall.rte_eth_dev_start 1 => ⟨-19, 0⟩
  | _ => env_ok tr c

/-- As `env_ok`, but the first PCI address does not parse. -/
def env_parse_fails : Env := fun tr c =>
  match c with
  | HwCall.eal_parse_pci_DomBDF _ => ⟨-1, 0⟩
  | _ => env_ok tr c

/-- As `env_ok`, but port 2 cannot be added to a bonded port. -/
def env_slave_fails : Env := fun tr c =>
  match c with
  | HwCall.rte_eth_bond_slave_add _ 2 => ⟨-1, 0⟩
  | _ => env_ok tr c

/-- As `env_ok`, but no link ever comes up. -/
def env_link_down : Env := fun tr c =>
  match c with
  | HwCall.rte_eth_link_get _ => ⟨0, 0⟩
  | _ => env_ok tr c

/-- As `env_ok`, but no PCI address maps to a port. -/
def env_resolve_fails : Env := fun tr c =>
  match c with
  | HwCall.rte_eth_dev_get_port_by_addr _ => ⟨-19, 0⟩
  | _ => env_ok tr c

/-- As `env_ok`, but port 3 cannot be configured (`-EINVAL`). -/
def env_configure_fails : Env := fun tr c =>
  match c with
  | HwCall.rte_eth_dev_configure 3 _ _ => ⟨-22, 0⟩
  | _ => env_ok tr c

/-- As `env_ok`, but the hardware reports a redirection table of size 0. -/
def env_no_reta : Env := fun tr c =>
  match c with
  | HwCall.rte_eth_dev_info_get _ => ⟨0, 0⟩
  | _ => env_ok tr c

/-- The configuration `config_one` after a successful initialisation on
`env_ok`. -/
def config_one_up : net_config :=
  { config_one with
    front := { iface_three with ports := some [0, 1, 2], id := 4 },
    back := { iface_single with ports := some [3], id := 3 },
    num_ports := 4 }

/-- The calls of a successful initialisation of `config_one` on `env_ok`. -/
def trace_one_up : Trace :=
  [HwCall.rte_eth_dev_count,
   HwCall.rte_calloc "ports" 3,
   HwCall.eal_parse_pci_DomBDF "0000:01:00.0",
   HwCall.rte_eth_dev_get_port_by_addr "0000:01:00.0",
   HwCall.rte_eth_dev_configure 0 1 1,
   HwCall.rte_eth_rx_queue_setup 0 0 0 7,
   HwCall.rte_eth_tx_queue_setup 0 0 0,
   HwCall.rte_eth_dev_start 0,
   HwCall.rte_eth_link_get 0,
   HwCall.eal_parse_pci_DomBDF "0000:01:00.1",
   HwCall.rte_eth_dev_get_port_by_addr "0000:01:00.1",
   HwCall.rte_eth_dev_configure 1 1 1,
   HwCall.rte_eth_rx_queue_setup 1 0 0 7,
   HwCall.rte_eth_tx_queue_setup 1 0 0,
   HwCall.rte_eth_dev_start 1,
   HwCall.rte_eth_link_get 1,
   HwCall.eal_parse_pci_DomBDF "0000:01:00.2",
   HwCall.rte_eth_dev_get_port_by_addr "0000:01:00.2",
   HwCall.rte_eth_dev_configure 2 1 1,
   HwCall.rte_eth_rx_queue_setup 2 0 0 7,
   HwCall.rte_eth_tx_queue_setup 2 0 0,
   HwCall.rte_eth_dev_start 2,
   HwCall.rte_eth_link_get 2,
   HwCall.rte_eth_bond_create (some "front") 0 0,
   HwCall.rte_eth_bond_slave_add 4 0,
   HwCall.rte_eth_bond_slave_add 4 1,
   HwCall.rte_eth_bond_slave_add 4 2,
   HwCall.rte_eth_dev_configure 4 1 1,
   HwCall.rte_eth_rx_queue_setup 4 0 0 7,
   HwCall.rte_eth_tx_queue_setup 4 0 0,
   HwCall.rte_eth_dev_start 4,
   HwCall.rte_eth_link_get 4,
   HwCall.rte_calloc "ports" 1,
   HwCall.eal_parse_pci_DomBDF "0000:02:00.0",
   HwCall.rte_eth_dev_get_port_by_addr "0000:02:00.0",
   HwCall.rte_eth_dev_configure 3 1 1,
   HwCall.rte_eth_rx_queue_setup 3 0 0 7,
   HwCall.rte_eth_tx_queue_setup 3 0 0,
   HwCall.rte_eth_dev_start 3,
   HwCall.rte_eth_link_get 3]

/-! ## Vocabulary for statements about traces -/

/-- The trace `tr2` continues `tr` with calls that all satisfy `P`. -/
def extends_by (P : HwCall → Prop) (tr tr2 : Trace) : Prop :=
  ∃ evs, tr2 = tr ++ evs ∧ ∀ e ∈ evs, P e

/-- The calls `init_port` can make for port `p`. -/
def port_call (p : Nat) : HwCall → Bool
  | HwCall.rte_eth_dev_configure q _ _ => q = p
  | HwCall.rte_eth_rx_queue_setup q _ _ _ => q = p
  | HwCall.rte_eth_tx_queue_setup q _ _ => q = p
  | HwCall.rte_eth_dev_start q => q = p
  | HwCall.rte_eth_link_get q => q = p
  | HwCall.sleep _ => true
  | _ => false

/-- A call that creates a bonded port or adds a slave to one. -/
def bond_call : HwCall → Bool
  | HwCall.rte_eth_bond_create _ _ _ => true
  | HwCall.rte_eth_bond_slave_add _ _ => true
  | _ => false

/-- A call of the first loop of `init_iface`: it touches no bonded port, and if
it starts a port, that port is one of entries `lo`, ..., `hi - 1` of `ports`. -/
def loop_call (ports : List Nat) (lo hi : Nat) (e : HwCall) : Prop :=
  bond_call e = false ∧
    ∀ q, e = HwCall.rte_eth_dev_start q → ∃ k, lo ≤ k ∧ k < hi ∧ ports.getD k 0 = q

/-- A call made while an interface is assembled leaves started only ports of
that interface: if it starts a port, the port is one of the physical ports of
the interface or, when there are several, its bonded port. -/
def iface_call (iface : gatekeeper_if) (e : HwCall) : Prop :=
  ∀ q, e = HwCall.rte_eth_dev_start q →
    (∃ k, k < iface.num_ports ∧ port_at iface k = q) ∨
      (iface.num_ports ≠ 1 ∧ q = iface.id)

/-- The calls `evs` tear an interface down: every physical port is stopped and
then closed; unless the interface has exactly one port, every physical port is
removed from the bonded port before the bonded port is freed; and the `ports`
array, every address, the address list and the name are handed to
`rte_free`. -/
def closes_iface (iface : gatekeeper_if) (evs : List HwCall) : Prop :=
  (∀ k, k < iface.num_ports →
    [HwCall.rte_eth_dev_stop (port_at iface k),
      HwCall.rte_eth_dev_close (port_at iface k)].Sublist evs) ∧
  (iface.num_ports ≠ 1 → ∀ k, k < iface.num_ports →
    [HwCall.rte_eth_bond_slave_remove iface.id (port_at iface k),
      HwCall.rte_eth_bond_free iface.name].Sublist evs) ∧
  HwCall.rte_free Freed.ports ∈ evs ∧
  (∀ k, k < iface.num_ports → HwCall.rte_free (Freed.pci_addr k) ∈ evs) ∧
  HwCall.rte_free Freed.pci_addrs ∈ evs ∧
  HwCall.rte_free Freed.name ∈ evs

/-- The calls `close_iface` makes. -/
def close_iface_calls (iface : gatekeeper_if) : List HwCall :=
  (close_iface iface []).2

/-- A call that is neither `rte_eth_dev_stop` nor `rte_eth_dev_close`. -/
def no_stop_call : HwCall → Bool
  | HwCall.rte_eth_dev_stop _ => false
  | HwCall.rte_eth_dev_close _ => false
  | _ => true

/-! ## Queue allocator (gatekeeper_net.h:65-97)

The header declares the per-lcore queue tables, the two atomic counters, the
value `GATEKEEPER_QUEUE_UNALLOCATED` and the function `get_queue_id`; the code
that allocates a queue is not among the sources.  The definitions of this
section follow the specification, for one interface and one direction. -/

/-- Modelled from the spec: how far an execution core is in its one call of the
allocator (`allocate_queue`, absent from the sources).  `idle`: it has not
called.  `fetched v`: it has atomically incremented the counter and holds the
pre-increment value `v`.  `finished v`: it has compared `v` with the requested
queue count and returned. -/
inductive AllocPc where
  | idle
  | fetched (v : Nat)
  | finished (v : Nat)
deriving DecidableEq, Repr

/-- Modelled from the spec: the allocator state of one interface and direction
(the allocator itself is absent from the sources): the atomic counter
(`rx_queue_id` or `tx_queue_id`), the table of queue assignments indexed by
core (`rx_queues` or `tx_queues`), and the progress of every core. -/
structure QueueAlloc where
  counter : Nat
  queues : Nat → Int
  pc : Nat → AllocPc

/-- Modelled from the spec: the state before any allocation (the initialisation
code is absent from the sources): the counter is zero, every table entry holds
the unallocated sentinel, no core has called. -/
def alloc_init : QueueAlloc :=
  { counter := 0, queues := fun _ => GATEKEEPER_QUEUE_UNALLOCATED, pc := fun _ => AllocPc.idle }

/-- Modelled from the spec: one atomic step of the allocator (`allocate_queue`,
absent from the sources) taken by `core`, with `Q` the requested queue count.
A core that has not called yet atomically increments the counter and keeps the
pre-increment value.  A core that holds a value `v` returns: with `v < Q` the
index `v` is assigned and recorded in the table entry of the core, otherwise
the call reports exhaustion.  A core that has returned does nothing. -/
def alloc_step (Q : Nat) (s : QueueAlloc) (core : Nat) : QueueAlloc :=
  match s.pc core with
  | AllocPc.idle =>
    { s with counter := s.counter + 1,
             pc := Function.update s.pc core (AllocPc.fetched s.counter) }
  | AllocPc.fetched v =>
    if v < Q then
      { s with queues := Function.update s.queues core (v : Int),
               pc := Function.update s.pc core (AllocPc.finished v) }
    else { s with pc := Function.update s.pc core (AllocPc.finished v) }
  | AllocPc.finished _ => s

/-- Modelled from the spec: an interleaving of allocator calls (the allocator
is absent from the sources): the schedule lists, step by step, the core that
takes the next atomic step. -/
def alloc_run (Q : Nat) (sched : List Nat) (s : QueueAlloc) : QueueAlloc :=
  sched.foldl (alloc_step Q) s

/-- Modelled from the spec: what the allocator call of a core returned
(`allocate_queue`, absent from the sources): `some v` for the queue index `v`,
`none` for exhaustion. -/
def alloc_result (Q : Nat) (s : QueueAlloc) (core : Nat) : Option Nat :=
  match s.pc core with
  | AllocPc.finished v => if v < Q then some v else none
  | _ => none

/-- Modelled from the spec: whether the allocator call of a core has returned
(`allocate_queue` is absent from the sources). -/
def alloc_done (s : QueueAlloc) (core : Nat) : Bool :=
  match s.pc core with
  | AllocPc.finished _ => true
  | _ => false

/-- Modelled from the spec: `get_queue_id` (declared in gatekeeper_net.h:96, its
body absent from the sources), the lookup `queue_id_of`: the index recorded for
the core, or the unallocated sentinel. -/
def get_queue_id (s : QueueAlloc) (lcore : Nat) : Int :=
  s.queues lcore

/-- The value a core holds once it has incremented the counter. -/
def alloc_held (p : AllocPc) : Option Nat :=
  match p with
  | AllocPc.idle => none
  | AllocPc.fetched v => some v
  | AllocPc.finished v => some v

/-- The outcome for a pre-increment value `v`: index `v` below the requested
queue count `Q`, exhaustion otherwise. -/
def alloc_outcome (Q v : Nat) : Option Nat :=
  if v < Q then some v else none

/-! ## Vocabulary for the install and read-back calls of `gatekeeper_setup_rss` -/

/-- The call `rte_eth_dev_rss_reta_update(portid, reta_conf, reta_size)` of
net.c:250-251, for a table of size `T`. -/
def reta_update_call (portid : Nat) (queues : List Nat) (num_queues T : Nat) : HwCall :=
  HwCall.rte_eth_dev_rss_reta_update portid (setup_reta T queues num_queues) T

/-- The call `rte_eth_dev_rss_reta_query(portid, reta_conf, reta_size)` of
net.c:267, for a table of size `T`. -/
def reta_query_call (portid : Nat) (queues : List Nat) (num_queues T : Nat) : HwCall :=
  HwCall.rte_eth_dev_rss_reta_query portid (setup_reta T queues num_queues) T

/-- What the update call of `gatekeeper_setup_rss` returns, when the function
is entered after the calls `tr` and the table has size `T`. -/
def reta_update_ret (env : Env) (portid : Nat) (queues : List Nat) (num_queues T : Nat)
    (tr : Trace) : Int :=
  (env (tr ++ [HwCall.rte_eth_dev_info_get portid])
    (reta_update_call portid queues num_queues T)).ret

/-- What the query call of `gatekeeper_setup_rss` returns, when the function
is entered after the calls `tr` and the table has size `T`. -/
def reta_query_ret (env : Env) (portid : Nat) (queues : List Nat) (num_queues T : Nat)
    (tr : Trace) : Int :=
  (env (tr ++ [HwCall.rte_eth_dev_info_get portid] ++
      [reta_update_call portid queues num_queues T])
    (reta_query_call portid queues num_queues T)).ret

/-- As `env_ok`, but the hardware refuses the table update with `-EIO`, a code
other than `-ENOTSUP` and `-EINVAL`. -/
def env_update_eio : Env := fun tr c =>
  match c with
  | HwCall.rte_eth_dev_rss_reta_update _ _ _ => ⟨-5, 0⟩
  | _ => env_ok tr c

/-! ## Theorems -/

theorem getD_set_eq {α : Type} (l : List α) (i j : Nat) (a d : α) :
    (l.set i a).getD j d = if i = j ∧ i < l.length then a else l.getD j d := by
  simp only [List.getD_eq_getElem?_getD, List.getElem?_set]
  by_cases h : i = j
  · subst h
    by_cases h2 : i < l.length
    · simp [h2]
    · simp [h2, List.getElem?_eq_none (Nat.le_of_not_lt h2)]
  · simp [h]

theorem getD_replicate_eq {α : Type} (n j : Nat) (a d : α) :
    (List.replicate n a).getD j d = if j < n then a else d := by
  simp only [List.getD_eq_getElem?_getD, List.getElem?_replicate]
  split <;> simp

theorem reta_shape_zero : reta_shape reta_conf_zero := by
  refine ⟨by simp [reta_conf_zero], ?_⟩
  intro g hg
  simp only [reta_conf_zero, getD_replicate_eq, hg, if_true, List.length_replicate]

theorem reta_shape_set (conf : List rte_eth_rss_reta_entry64) (queues : List Nat)
    (Q i : Nat) (h : reta_shape conf) :
    reta_shape (reta_set conf queues Q i) := by
  obtain ⟨hl, hg⟩ := h
  refine ⟨by simp [reta_set, hl], ?_⟩
  intro g hg'
  have h1 := hg g hg'
  simp only [reta_set, getD_set_eq]
  split
  · next hc => simp only [List.length_set]; rw [hc.1]; exact h1
  · exact h1

theorem reta_bucket_set (conf : List rte_eth_rss_reta_entry64) (queues : List Nat)
    (Q i j : Nat) (h : reta_shape conf) (hi : i < ETH_RSS_RETA_SIZE_512) :
    reta_bucket (reta_set conf queues Q i) j =
      if j = i then queues.getD (queue_idx i Q) 0 else reta_bucket conf j := by
  obtain ⟨hl, hg⟩ := h
  have hgi : i / RTE_RETA_GROUP_SIZE < GATEKEEPER_RETA_MAX_SIZE := by
    simp only [RTE_RETA_GROUP_SIZE, GATEKEEPER_RETA_MAX_SIZE, ETH_RSS_RETA_SIZE_512] at *
    omega
  have hlen := hg _ hgi
  have hs : i % RTE_RETA_GROUP_SIZE < RTE_RETA_GROUP_SIZE := by
    simp only [RTE_RETA_GROUP_SIZE]; omega
  simp only [reta_bucket, reta_set, getD_set_eq]
  by_cases hji : j = i
  · subst hji
    have hA : j / RTE_RETA_GROUP_SIZE < conf.length := by rw [hl]; exact hgi
    have hB : j % RTE_RETA_GROUP_SIZE <
        (conf.getD (j / RTE_RETA_GROUP_SIZE) reta_none).reta.length := by rw [hlen]; exact hs
    simp only [hA, hB, and_self, if_true, getD_set_eq]
  · by_cases hgrp : i / RTE_RETA_GROUP_SIZE = j / RTE_RETA_GROUP_SIZE
    · have hsh : i % RTE_RETA_GROUP_SIZE ≠ j % RTE_RETA_GROUP_SIZE := by
        intro hc
        apply hji
        have h1 := Nat.div_add_mod i RTE_RETA_GROUP_SIZE
        have h2 := Nat.div_add_mod j RTE_RETA_GROUP_SIZE
        rw [hgrp, hc] at h1
        omega
      rw [if_pos ⟨hgrp, by rw [hl]; exact hgi⟩]
      simp only [getD_set_eq, hsh, false_and, if_false, hji, hgrp]
    · simp only [hgrp, hji, false_and, if_false]

theorem reta_mask_set (conf : List rte_eth_rss_reta_entry64) (queues : List Nat)
    (Q i g : Nat) (h : reta_shape conf) (hi : i < ETH_RSS_RETA_SIZE_512) :
    ((reta_set conf queues Q i).getD g reta_none).mask =
      if g = i / RTE_RETA_GROUP_SIZE then MASK_ALL else (conf.getD g reta_none).mask := by
  obtain ⟨hl, _⟩ := h
  have hgi : i / RTE_RETA_GROUP_SIZE < GATEKEEPER_RETA_MAX_SIZE := by
    simp only [RTE_RETA_GROUP_SIZE, GATEKEEPER_RETA_MAX_SIZE, ETH_RSS_RETA_SIZE_512] at *
    omega
  simp only [reta_set, getD_set_eq]
  by_cases hc : i / RTE_RETA_GROUP_SIZE = g
  · subst hc
    have hA : i / RTE_RETA_GROUP_SIZE < conf.length := by rw [hl]; exact hgi
    simp only [hA, and_self, if_true]
  · have hc2 : ¬ g = i / RTE_RETA_GROUP_SIZE := fun h => hc h.symm
    simp only [hc, hc2, false_and, if_false]

/-- The table after the first `k` iterations of the loop. -/
theorem setup_reta_spec (queues : List Nat) (Q : Nat) :
    ∀ k, k ≤ ETH_RSS_RETA_SIZE_512 →
      reta_shape (setup_reta k queues Q) ∧
      (∀ j, reta_bucket (setup_reta k queues Q) j =
        if j < k then queues.getD (queue_idx j Q) 0 else 0) ∧
      (∀ g, ((setup_reta k queues Q).getD g reta_none).mask =
        if g * RTE_RETA_GROUP_SIZE < k then MASK_ALL else 0) := by
  intro k
  induction k with
  | zero =>
    intro _
    refine ⟨reta_shape_zero, ?_, ?_⟩
    · intro j
      simp only [setup_reta, List.range_zero, List.foldl_nil, Nat.not_lt_zero, if_false]
      simp only [reta_bucket, reta_conf_zero, getD_replicate_eq]
      split
      · simp only [getD_replicate_eq]; split <;> rfl
      · rfl
    · intro g
      simp only [setup_reta, List.range_zero, List.foldl_nil, Nat.not_lt_zero, if_false]
      simp only [reta_conf_zero, getD_replicate_eq]
      split <;> rfl
  | succ k ih =>
    intro hk
    have hk' : k < ETH_RSS_RETA_SIZE_512 := hk
    obtain ⟨hs, hb, hm⟩ := ih (Nat.le_of_lt hk')
    have hstep : setup_reta (k + 1) queues Q = reta_set (setup_reta k queues Q) queues Q k := by
      simp [setup_reta, List.range_succ, List.foldl_append]
    rw [hstep]
    refine ⟨reta_shape_set _ _ _ _ hs, ?_, ?_⟩
    · intro j
      rw [reta_bucket_set _ _ _ _ _ hs hk', hb]
      by_cases hj : j = k
      · simp [hj]
      · by_cases hj2 : j < k
        · simp [hj, hj2, Nat.lt_succ_of_lt hj2]
        · have : ¬ j < k + 1 := by omega
          simp [hj, hj2, this]
    · intro g
      rw [reta_mask_set _ _ _ _ _ hs hk', hm]
      simp only [RTE_RETA_GROUP_SIZE]
      by_cases hg : g = k / 64
      · have : g * 64 < k + 1 := by omega
        rw [if_pos hg, if_pos this]
      · rw [if_neg hg]
        by_cases hg2 : g * 64 < k
        · have : g * 64 < k + 1 := by omega
          rw [if_pos hg2, if_pos this]
        · have : ¬ g * 64 < k + 1 := by omega
          rw [if_neg hg2, if_neg this]

/-- C1: in `gatekeeper_setup_rss`, when the hardware reports a table size `T`
with `1 ≤ T ≤ 512`, and `Q ≥ 1` queues are given in an array of length at least
`Q`, the call `rte_eth_dev_rss_reta_update` is made right after the size query
and receives the size `T` and a table in which every bucket `i < T` (entry
`i % 64` of group `i / 64`) is selected by its group mask and holds
`queues[i % Q]`, while every bucket from `T` on still holds the zero that
`memset` left: exactly the first `T` buckets are set.  The mask of a group is
`~0` when the group holds one of the first `T` buckets and `0` otherwise. -/
theorem setup_rss_table (env : Env) (portid : Nat) (queues : List Nat) (Q T : Nat)
    (tr : Trace) (hT1 : 1 ≤ T) (hT2 : T ≤ 512) (hQ : 1 ≤ Q) (hlen : Q ≤ queues.length)
    (hsize : (env tr (HwCall.rte_eth_dev_info_get portid)).out = T) :
    ∃ reta_conf rest,
      (gatekeeper_setup_rss env portid queues Q tr).2 =
        tr ++ [HwCall.rte_eth_dev_info_get portid,
          HwCall.rte_eth_dev_rss_reta_update portid reta_conf T] ++ rest ∧
      (∀ c ∈ rest, c = HwCall.rte_eth_dev_rss_reta_query portid reta_conf T) ∧
      (∀ i, i < T → reta_selected reta_conf i = true ∧
        queues[i % Q]? = some (reta_bucket reta_conf i)) ∧
      (∀ i, T ≤ i → reta_bucket reta_conf i = 0) ∧
      (∀ g, (reta_conf.getD g reta_none).mask =
        if g * RTE_RETA_GROUP_SIZE < T then MASK_ALL else 0) := by
  obtain ⟨_, hb, hm⟩ := setup_reta_spec queues Q T hT2
  refine ⟨setup_reta T queues Q, ?_⟩
  have h0 : ¬ T = 0 := by omega
  have h512 : ¬ T > ETH_RSS_RETA_SIZE_512 := by simp only [ETH_RSS_RETA_SIZE_512]; omega
  have hprops : (∀ i, i < T → reta_selected (setup_reta T queues Q) i = true ∧
        queues[i % Q]? = some (reta_bucket (setup_reta T queues Q) i)) ∧
      (∀ i, T ≤ i → reta_bucket (setup_reta T queues Q) i = 0) ∧
      (∀ g, ((setup_reta T queues Q).getD g reta_none).mask =
        if g * RTE_RETA_GROUP_SIZE < T then MASK_ALL else 0) := by
    refine ⟨?_, ?_, hm⟩
    · intro i hi
      constructor
      · have hg : i / RTE_RETA_GROUP_SIZE * RTE_RETA_GROUP_SIZE < T := by
          have := Nat.div_mul_le_self i RTE_RETA_GROUP_SIZE
          omega
        simp only [reta_selected, hm, hg, if_true, MASK_ALL, Nat.testBit_two_pow_sub_one]
        simp only [RTE_RETA_GROUP_SIZE, decide_eq_true_eq]
        omega
      · have hlt : i % Q < queues.length := lt_of_lt_of_le (Nat.mod_lt i hQ) hlen
        rw [hb i, if_pos hi, queue_idx, List.getD_eq_getElem?_getD,
          List.getElem?_eq_getElem hlt]
        rfl
    · intro i hi
      rw [hb i, if_neg (by omega)]
  simp only [gatekeeper_setup_rss, hsize, h0, h512, if_false]
  split
  · exact ⟨[], by simp, by simp, hprops⟩
  · split
    · exact ⟨[], by simp, by simp, hprops⟩
    · refine ⟨[HwCall.rte_eth_dev_rss_reta_query portid (setup_reta T queues Q) T], ?_, ?_,
        hprops⟩
      · split
        · simp
        · split <;> simp
      · simp

/-- C6: when the hardware reports a redirection-table size of `0`, or one above
`512`, `gatekeeper_setup_rss` returns `-1` and the only call it makes is the
device-information query: neither `rte_eth_dev_rss_reta_update` nor
`rte_eth_dev_rss_reta_query` is called. -/
theorem setup_rss_bad_size (env : Env) (portid : Nat) (queues : List Nat) (Q : Nat)
    (tr : Trace)
    (h : (env tr (HwCall.rte_eth_dev_info_get portid)).out = 0 ∨
      512 < (env tr (HwCall.rte_eth_dev_info_get portid)).out) :
    gatekeeper_setup_rss env portid queues Q tr =
      (-1, tr ++ [HwCall.rte_eth_dev_info_get portid]) ∧
    ∀ p conf size,
      HwCall.rte_eth_dev_rss_reta_update p conf size ∉
        (gatekeeper_setup_rss env portid queues Q tr).2.drop tr.length ∧
      HwCall.rte_eth_dev_rss_reta_query p conf size ∉
        (gatekeeper_setup_rss env portid queues Q tr).2.drop tr.length := by
  have heq : gatekeeper_setup_rss env portid queues Q tr =
      (-1, tr ++ [HwCall.rte_eth_dev_info_get portid]) := by
    rcases h with h | h
    · simp only [gatekeeper_setup_rss, h, if_true]
    · have h0 : ¬ (env tr (HwCall.rte_eth_dev_info_get portid)).out = 0 := by omega
      have h1 : (env tr (HwCall.rte_eth_dev_info_get portid)).out > ETH_RSS_RETA_SIZE_512 := h
      simp only [gatekeeper_setup_rss, h0, h1, if_true, if_false]
  refine ⟨heq, ?_⟩
  intro p conf size
  rw [heq]
  simp

/-- C1, for a table of 128 buckets spread over the queues 3, 5 and 7. -/
theorem setup_rss_table_witness :
    ∃ reta_conf rest,
      (gatekeeper_setup_rss env_ok 0 [3, 5, 7] 3 []).2 =
        [] ++ [HwCall.rte_eth_dev_info_get 0,
          HwCall.rte_eth_dev_rss_reta_update 0 reta_conf 128] ++ rest ∧
      (∀ c ∈ rest, c = HwCall.rte_eth_dev_rss_reta_query 0 reta_conf 128) ∧
      (∀ i, i < 128 → reta_selected reta_conf i = true ∧
        [3, 5, 7][i % 3]? = some (reta_bucket reta_conf i)) ∧
      (∀ i, 128 ≤ i → reta_bucket reta_conf i = 0) ∧
      (∀ g, (reta_conf.getD g reta_none).mask =
        if g * RTE_RETA_GROUP_SIZE < 128 then MASK_ALL else 0) :=
  setup_rss_table env_ok 0 [3, 5, 7] 3 128 [] (by decide) (by decide) (by decide)
    (by decide) (by decide)

/-- C6, for hardware that reports a table of size 0. -/
theorem setup_rss_bad_size_witness :
    gatekeeper_setup_rss env_no_reta 0 [3, 5, 7] 3 [] =
      (-1, [] ++ [HwCall.rte_eth_dev_info_get 0]) ∧
    ∀ p conf size,
      HwCall.rte_eth_dev_rss_reta_update p conf size ∉
        (gatekeeper_setup_rss env_no_reta 0 [3, 5, 7] 3 []).2.drop ([] : Trace).length ∧
      HwCall.rte_eth_dev_rss_reta_query p conf size ∉
        (gatekeeper_setup_rss env_no_reta 0 [3, 5, 7] 3 []).2.drop ([] : Trace).length :=
  setup_rss_bad_size env_no_reta 0 [3, 5, 7] 3 [] (Or.inl (by decide))

/-! ### Traces only grow -/

theorem extends_by_refl (P : HwCall → Prop) (tr : Trace) : extends_by P tr tr :=
  ⟨[], by simp, by simp⟩

theorem extends_by_trans {P : HwCall → Prop} {a b c : Trace}
    (h1 : extends_by P a b) (h2 : extends_by P b c) : extends_by P a c := by
  obtain ⟨e1, rfl, p1⟩ := h1
  obtain ⟨e2, rfl, p2⟩ := h2
  refine ⟨e1 ++ e2, by simp, ?_⟩
  intro e he
  rcases List.mem_append.1 he with h | h
  · exact p1 e h
  · exact p2 e h

theorem extends_by_one {P : HwCall → Prop} (tr : Trace) (c : HwCall) (h : P c) :
    extends_by P tr (tr ++ [c]) :=
  ⟨[c], rfl, by intro e he; rw [List.mem_singleton.1 he]; exact h⟩

theorem extends_by_mono {P Q : HwCall → Prop} {a b : Trace} (hPQ : ∀ e, P e → Q e)
    (h : extends_by P a b) : extends_by Q a b := by
  obtain ⟨e1, rfl, p1⟩ := h
  exact ⟨e1, rfl, fun e he => hPQ e (p1 e he)⟩

theorem extends_by_drop {P : HwCall → Prop} {a b : Trace} (h : extends_by P a b) :
    ∀ e ∈ b.drop a.length, P e := by
  obtain ⟨e1, rfl, p1⟩ := h
  simpa using p1

/-! ### `init_port` -/

theorem setup_queues_calls (env : Env) (plat : Platform) (nc : net_config) (p : Nat) :
    ∀ (lcores : List Nat) (tr : Trace),
      extends_by (fun e => port_call p e = true) tr
        (setup_queues env plat nc p lcores tr).2 := by
  intro lcores
  induction lcores with
  | nil => intro tr; exact extends_by_refl _ _
  | cons lcore rest ih =>
    intro tr
    simp only [setup_queues]
    split
    · next ret tr1 hrx =>
      split at hrx
      · split at hrx
        · cases hrx
          exact extends_by_one _ _ (by simp [port_call])
        · cases hrx
      · cases hrx
    · next tr1 hrx =>
      have h1 : extends_by (fun e => port_call p e = true) tr tr1 := by
        split at hrx
        · split at hrx
          · cases hrx
          · cases hrx
            exact extends_by_one _ _ (by simp [port_call])
        · cases hrx
          exact extends_by_refl _ _
      split
      · next ret tr2 htx =>
        split at htx
        · split at htx
          · cases htx
            exact extends_by_trans h1 (extends_by_one _ _ (by simp [port_call]))
          · cases htx
        · cases htx
      · next tr2 htx =>
        have h2 : extends_by (fun e => port_call p e = true) tr1 tr2 := by
          split at htx
          · split at htx
            · cases htx
            · cases htx
              exact extends_by_one _ _ (by simp [port_call])
          · cases htx
            exact extends_by_refl _ _
        exact extends_by_trans h1 (extends_by_trans h2 (ih tr2))

theorem link_loop_calls (env : Env) (p : Nat) (w : Int) :
    ∀ (fuel attempts : Nat) (tr : Trace) (r : Int × Trace),
      link_loop env p w fuel attempts tr = some r →
        extends_by (fun e => port_call p e = true) tr r.2 := by
  intro fuel
  induction fuel with
  | zero => intro attempts tr r h; simp [link_loop] at h
  | succ n ih =>
    intro attempts tr r h
    simp only [link_loop] at h
    split at h
    · cases h
      exact extends_by_one _ _ (by simp [port_call])
    · split at h
      · cases h
        exact extends_by_one _ _ (by simp [port_call])
      · have h3 := ih _ _ _ h
        have h1 : extends_by (fun e => port_call p e = true) tr
            (tr ++ [HwCall.rte_eth_link_get p]) := extends_by_one _ _ (by simp [port_call])
        have h2 : extends_by (fun e => port_call p e = true) (tr ++ [HwCall.rte_eth_link_get p])
            (tr ++ [HwCall.rte_eth_link_get p] ++ [HwCall.sleep 1]) :=
          extends_by_one _ _ (by simp [port_call])
        exact extends_by_trans h1 (extends_by_trans h2 h3)

/-- With seven iterations allowed the link loop always returns. -/
theorem link_loop_returns (env : Env) (p : Nat) (w : Int) :
    ∀ (fuel attempts : Nat) (tr : Trace),
      attempts ≤ NUM_ATTEMPTS_LINK_GET + 1 → NUM_ATTEMPTS_LINK_GET + 2 ≤ fuel + attempts →
        ∃ r, link_loop env p w fuel attempts tr = some r := by
  intro fuel
  induction fuel with
  | zero =>
    intro attempts tr h1 h2
    simp only [NUM_ATTEMPTS_LINK_GET] at h1 h2
    omega
  | succ n ih =>
    intro attempts tr h1 h2
    simp only [link_loop]
    split
    · exact ⟨_, rfl⟩
    · split
      · exact ⟨_, rfl⟩
      · next hc =>
        simp only [NUM_ATTEMPTS_LINK_GET] at h1 h2 hc ⊢
        have ha : attempts ≤ 5 := by
          by_contra hne
          exact hc (Or.inr (by omega))
        have hmod : (attempts + 1) % 256 = attempts + 1 := Nat.mod_eq_of_lt (by omega)
        rw [hmod]
        exact ih _ _ (by simp only [NUM_ATTEMPTS_LINK_GET]; omega)
          (by simp only [NUM_ATTEMPTS_LINK_GET]; omega)

theorem init_port_calls (env : Env) (plat : Platform) (fuel : Nat) (nc : net_config)
    (p : Nat) (nsp : Option Nat) (w : Int) (tr : Trace) (r : Int × Trace)
    (h : init_port env plat fuel nc p nsp w tr = some r) :
    extends_by (fun e => port_call p e = true) tr r.2 := by
  simp only [init_port] at h
  have hq := setup_queues_calls env plat nc p plat.slave_lcores
    (tr ++ [HwCall.rte_eth_dev_configure p nc.num_rx_queues nc.num_tx_queues])
  have h0 : extends_by (fun e => port_call p e = true) tr
      (tr ++ [HwCall.rte_eth_dev_configure p nc.num_rx_queues nc.num_tx_queues]) :=
    extends_by_one _ _ (by simp [port_call])
  split at h
  · cases h
    exact h0
  · split at h
    · next ret tr1 hs =>
      cases h
      rw [hs] at hq
      exact extends_by_trans h0 hq
    · next tr1 hs =>
      rw [hs] at hq
      have h2 : extends_by (fun e => port_call p e = true) tr1
          (tr1 ++ [HwCall.rte_eth_dev_start p]) :=
        extends_by_one _ _ (by simp [port_call])
      split at h
      · cases h
        exact extends_by_trans h0 (extends_by_trans hq h2)
      · exact extends_by_trans h0 (extends_by_trans hq
          (extends_by_trans h2 (link_loop_calls env p w _ _ _ _ h)))

/-- Given seven iterations for the link loop, `init_port` returns. -/
theorem init_port_returns (env : Env) (plat : Platform) (fuel : Nat) (nc : net_config)
    (p : Nat) (nsp : Option Nat) (w : Int) (tr : Trace)
    (hfuel : NUM_ATTEMPTS_LINK_GET + 2 ≤ fuel) :
    ∃ r, init_port env plat fuel nc p nsp w tr = some r := by
  simp only [init_port]
  split
  · exact ⟨_, rfl⟩
  · split
    · exact ⟨_, rfl⟩
    · split
      · exact ⟨_, rfl⟩
      · exact link_loop_returns env p w fuel 0 _ (by simp) (by simpa using hfuel)

/-! ### The first loop of `init_iface` -/

theorem port_call_loop_call (ports : List Nat) (lo hi k p : Nat) (hk1 : lo ≤ k) (hk2 : k < hi)
    (hp : ports.getD k 0 = p) (e : HwCall) (h : port_call p e = true) :
    loop_call ports lo hi e := by
  constructor
  · cases e <;> simp [port_call] at h <;> simp [bond_call]
  · intro q hq
    subst hq
    simp only [port_call, decide_eq_true_eq] at h
    exact ⟨k, hk1, hk2, by rw [hp, h]⟩

theorem loop_call_mono (ports : List Nat) (lo lo2 hi : Nat) (h : lo ≤ lo2) (e : HwCall)
    (he : loop_call ports lo2 hi e) : loop_call ports lo hi e := by
  refine ⟨he.1, ?_⟩
  intro q hq
  obtain ⟨k, h1, h2, h3⟩ := he.2 q hq
  exact ⟨k, by omega, h2, h3⟩

theorem init_iface_loop_spec (env : Env) (plat : Platform) (fuel : Nat) (nc : net_config)
    (addrs : List String) :
    ∀ (todo i : Nat) (ports : List Nat) (tr : Trace) (ok : Bool) (ports2 : List Nat)
      (tr2 : Trace),
      init_iface_loop env plat fuel nc addrs todo i ports tr = some (ok, ports2, tr2) →
      i + todo ≤ ports.length →
        ports2.length = ports.length ∧
        (∀ k, k < i → ports2.getD k 0 = ports.getD k 0) ∧
        extends_by (loop_call ports2 i (i + todo)) tr tr2 := by
  intro todo
  induction todo with
  | zero =>
    intro i ports tr ok ports2 tr2 h _
    simp only [init_iface_loop, Option.some.injEq, Prod.mk.injEq] at h
    obtain ⟨_, rfl, rfl⟩ := h
    exact ⟨rfl, fun _ _ => rfl, extends_by_refl _ _⟩
  | succ n ih =>
    intro i ports tr ok ports2 tr2 h hlen
    simp only [init_iface_loop] at h
    have hparse : ∀ a, loop_call ports2 i (i + (n + 1)) (HwCall.eal_parse_pci_DomBDF a) :=
      fun a => ⟨rfl, fun q hq => by cases hq⟩
    have hget : ∀ a, loop_call ports2 i (i + (n + 1))
        (HwCall.rte_eth_dev_get_port_by_addr a) :=
      fun a => ⟨rfl, fun q hq => by cases hq⟩
    split at h
    · simp only [Option.some.injEq, Prod.mk.injEq] at h
      obtain ⟨_, rfl, rfl⟩ := h
      exact ⟨rfl, fun _ _ => rfl, extends_by_one _ _ (hparse _)⟩
    · split at h
      · simp only [Option.some.injEq, Prod.mk.injEq] at h
        obtain ⟨_, rfl, rfl⟩ := h
        exact ⟨rfl, fun _ _ => rfl,
          extends_by_trans (extends_by_one _ _ (hparse _)) (extends_by_one _ _ (hget _))⟩
      · split at h
        · cases h
        · next ret2 tr3 hport =>
          have hpc := init_port_calls _ _ _ _ _ _ _ _ _ hport
          have hpre : extends_by (loop_call ports2 i (i + (n + 1))) tr
              (tr ++ [HwCall.eal_parse_pci_DomBDF (addrs.getD i "")] ++
                [HwCall.rte_eth_dev_get_port_by_addr (addrs.getD i "")]) :=
            extends_by_trans (extends_by_one _ _ (hparse _)) (extends_by_one _ _ (hget _))
          have hi : i < ports.length := by omega
          split at h
          · simp only [Option.some.injEq, Prod.mk.injEq] at h
            obtain ⟨_, rfl, rfl⟩ := h
            refine ⟨by simp, ?_, ?_⟩
            · intro k hk
              rw [getD_set_eq, if_neg (by omega)]
            · refine extends_by_trans hpre (extends_by_mono ?_ hpc)
              intro e he
              exact port_call_loop_call _ _ _ i _ (Nat.le_refl _) (by omega)
                (by rw [getD_set_eq, if_pos ⟨rfl, hi⟩]) e he
          · obtain ⟨h1, h2, h3⟩ := ih (i + 1) _ tr3 ok ports2 tr2 h (by simp; omega)
            have hset : ports2.getD i 0 =
                (env (tr ++ [HwCall.eal_parse_pci_DomBDF (addrs.getD i "")])
                  (HwCall.rte_eth_dev_get_port_by_addr (addrs.getD i ""))).out % 256 := by
              rw [h2 i (by omega), getD_set_eq, if_pos ⟨rfl, hi⟩]
            refine ⟨by simpa using h1, ?_, ?_⟩
            · intro k hk
              rw [h2 k (by omega), getD_set_eq, if_neg (by omega)]
            · refine extends_by_trans hpre (extends_by_trans (extends_by_mono ?_ hpc) ?_)
              · intro e he
                exact port_call_loop_call _ _ _ i _ (Nat.le_refl _) (by omega) hset e he
              · refine extends_by_mono ?_ h3
                intro e he
                have he2 : loop_call ports2 (i + 1) (i + (n + 1)) e := by
                  have : i + 1 + n = i + (n + 1) := by omega
                  rw [← this]; exact he
                exact loop_call_mono _ _ _ _ (by omega) e he2

/-! ### `init_iface` -/

theorem add_slaves_calls (env : Env) (iface : gatekeeper_if) :
    ∀ (todo i added : Nat) (tr : Trace),
      extends_by (fun e => ∀ q, e ≠ HwCall.rte_eth_dev_start q) tr
        (add_slaves env iface todo i added tr).2.2 := by
  intro todo
  induction todo with
  | zero => intro i added tr; exact extends_by_refl _ _
  | succ n ih =>
    intro i added tr
    simp only [add_slaves]
    have h1 : extends_by (fun e => ∀ q, e ≠ HwCall.rte_eth_dev_start q) tr
        (tr ++ [HwCall.rte_eth_bond_slave_add iface.id (port_at iface i)]) :=
      extends_by_one _ _ (by intro q hq; cases hq)
    split
    · exact h1
    · exact extends_by_trans h1 (ih _ _ _)

/-- An `init_iface` that leaves the `ports` array allocated went through every
step: it returns `0`, keeps the name and the addresses, and every port it
started is a port of the interface. -/
theorem init_iface_success (env : Env) (plat : Platform) (fuel : Nat) (nc : net_config)
    (iface : gatekeeper_if) (tr : Trace) (ret : Int) (iface2 : gatekeeper_if) (tr2 : Trace)
    (h : init_iface env plat fuel nc iface tr = some (ret, iface2, tr2))
    (hp : iface2.ports ≠ none) :
    ret = 0 ∧ iface2.num_ports = iface.num_ports ∧ iface2.name = iface.name ∧
      iface2.pci_addrs = iface.pci_addrs ∧ extends_by (iface_call iface2) tr tr2 := by
  simp only [init_iface] at h
  split at h
  · cases h; exact absurd rfl hp
  · split at h
    · cases h
    · next ports tr1 hloop =>
      simp only [Option.some.injEq] at h
      exact absurd (Eq.symm (congrArg (fun r => r.2.1.ports) h)) hp
    · next ports tr1 hloop =>
      obtain ⟨hlen, _, hev⟩ := init_iface_loop_spec _ _ _ _ _ _ _ _ _ _ _ _ hloop (by simp)
      have hcalloc : ∀ i2 : gatekeeper_if, extends_by (iface_call i2) tr
          (tr ++ [HwCall.rte_calloc "ports" iface.num_ports]) :=
        fun i2 => extends_by_one _ _ (by intro q hq; cases hq)
      split at h
      · next h1 =>
        simp only [Option.some.injEq, Prod.mk.injEq] at h
        obtain ⟨rfl, rfl, rfl⟩ := h
        refine ⟨rfl, rfl, rfl, rfl, extends_by_trans (hcalloc _) (extends_by_mono ?_ hev)⟩
        intro e he q hq
        obtain ⟨k, _, hk2, hk3⟩ := he.2 q hq
        exact Or.inl ⟨k, by simpa using hk2, by simpa [port_at] using hk3⟩
      · rename_i hn1
        split at h
        · simp only [Option.some.injEq] at h
          exact absurd (Eq.symm (congrArg (fun r => r.2.1.ports) h)) hp
        · split at h
          · simp only [Option.some.injEq] at h
            exact absurd (Eq.symm (congrArg (fun r => r.2.1.ports) h)) hp
          · next added tr3 hadd =>
            split at h
            · cases h
            · next ret4 tr4 hport =>
              split at h
              · simp only [Option.some.injEq] at h
                exact absurd (Eq.symm (congrArg (fun r => r.2.1.ports) h)) hp
              · next hge =>
                simp only [Option.some.injEq, Prod.mk.injEq] at h
                obtain ⟨rfl, rfl, rfl⟩ := h
                have hs := add_slaves_calls env
                  { iface with ports := some ports,
                               id := ((env tr1 (HwCall.rte_eth_bond_create iface.name
                                  BONDING_MODE_ROUND_ROBIN 0)).ret).toNat % 256 }
                  iface.num_ports 0 0
                  (tr1 ++ [HwCall.rte_eth_bond_create iface.name BONDING_MODE_ROUND_ROBIN 0])
                rw [hadd] at hs
                have hpc := init_port_calls _ _ _ _ _ _ _ _ _ hport
                refine ⟨rfl, rfl, rfl, rfl, ?_⟩
                refine extends_by_trans (hcalloc _) (extends_by_trans
                  (extends_by_mono ?_ hev) (extends_by_trans (extends_by_one _ _ ?_)
                    (extends_by_trans (extends_by_mono ?_ hs) (extends_by_mono ?_ hpc))))
                · intro e he q hq
                  obtain ⟨k, _, hk2, hk3⟩ := he.2 q hq
                  exact Or.inl ⟨k, by simpa using hk2, by simpa [port_at] using hk3⟩
                · intro q hq; cases hq
                · intro e he q hq
                  exact absurd hq (he q)
                · intro e he q hq
                  subst hq
                  simp only [port_call, decide_eq_true_eq] at he
                  exact Or.inr ⟨hn1, he⟩

/-! ### The functions return -/

theorem init_iface_loop_returns (env : Env) (plat : Platform) (fuel : Nat) (nc : net_config)
    (addrs : List String) (hfuel : NUM_ATTEMPTS_LINK_GET + 2 ≤ fuel) :
    ∀ (todo i : Nat) (ports : List Nat) (tr : Trace),
      ∃ r, init_iface_loop env plat fuel nc addrs todo i ports tr = some r := by
  intro todo
  induction todo with
  | zero => intro i ports tr; exact ⟨_, rfl⟩
  | succ n ih =>
    intro i ports tr
    simp only [init_iface_loop]
    split
    · exact ⟨_, rfl⟩
    · split
      · exact ⟨_, rfl⟩
      · obtain ⟨r, hr⟩ := init_port_returns env plat fuel nc
          ((env (tr ++ [HwCall.eal_parse_pci_DomBDF (addrs.getD i "")])
            (HwCall.rte_eth_dev_get_port_by_addr (addrs.getD i ""))).out % 256) (some 0) 0
          (tr ++ [HwCall.eal_parse_pci_DomBDF (addrs.getD i "")] ++
            [HwCall.rte_eth_dev_get_port_by_addr (addrs.getD i "")]) hfuel
        rw [hr]
        simp only
        split
        · exact ⟨_, rfl⟩
        · exact ih _ _ _

/-- Given seven iterations for each link loop, `init_iface` returns. -/
theorem init_iface_returns (env : Env) (plat : Platform) (fuel : Nat) (nc : net_config)
    (iface : gatekeeper_if) (tr : Trace) (hfuel : NUM_ATTEMPTS_LINK_GET + 2 ≤ fuel) :
    ∃ r, init_iface env plat fuel nc iface tr = some r := by
  simp only [init_iface]
  split
  · exact ⟨_, rfl⟩
  · obtain ⟨⟨ok, ports, tr1⟩, hr⟩ := init_iface_loop_returns env plat fuel nc
      (iface.pci_addrs.getD []) hfuel iface.num_ports 0 (List.replicate iface.num_ports 0)
      (tr ++ [HwCall.rte_calloc "ports" iface.num_ports])
    rw [hr]
    cases ok with
    | false => exact ⟨_, rfl⟩
    | true =>
      simp only
      split
      · exact ⟨_, rfl⟩
      · split
        · exact ⟨_, rfl⟩
        · split
          · exact ⟨_, rfl⟩
          · next added tr3 _ =>
            obtain ⟨r4, hr4⟩ := init_port_returns env plat fuel nc
              ((env tr1 (HwCall.rte_eth_bond_create iface.name BONDING_MODE_ROUND_ROBIN 0)).ret.toNat
                % 256) none 1 tr3 hfuel
            rw [hr4]
            simp only
            split <;> exact ⟨_, rfl⟩

/-- Given seven iterations for each link loop, `gatekeeper_init_network`
returns. -/
theorem init_network_returns (env : Env) (plat : Platform) (fuel : Nat)
    (config : net_config) (tr : Trace) (hfuel : NUM_ATTEMPTS_LINK_GET + 2 ≤ fuel) :
    ∃ r, gatekeeper_init_network env plat fuel config tr = some r := by
  have hbody : ∀ (c : net_config) (t : Trace),
      ∃ r, init_network_body env plat fuel c t = some r := by
    intro c t
    simp only [init_network_body]
    split
    · exact ⟨_, rfl⟩
    · next pool tr2 _ =>
      obtain ⟨⟨ret4, front, tr4⟩, h4⟩ := init_iface_returns env plat fuel
        { c with gatekeeper_pktmbuf_pool := some pool,
                 num_ports := (env tr2 HwCall.rte_eth_dev_count).out }
        c.front (tr2 ++ [HwCall.rte_eth_dev_count]) hfuel
      try simp only at h4
      rw [h4]
      simp only
      split
      · exact ⟨_, rfl⟩
      · obtain ⟨⟨ret5, back, tr5⟩, h5⟩ := init_iface_returns env plat fuel
          { c with gatekeeper_pktmbuf_pool := some pool,
                   num_ports := (env tr2 HwCall.rte_eth_dev_count).out,
                   front := front }
          c.back tr4 hfuel
        try simp only at h5
        rw [h5]
        simp only
        split <;> exact ⟨_, rfl⟩
  simp only [gatekeeper_init_network]
  split
  · split
    · exact ⟨_, rfl⟩
    · exact hbody _ _
  · exact hbody _ _

/-! ### Claims about `init_port` and `init_iface` -/

/-- C3 (code bug): on an interface with three addresses whose second port
cannot be started, `init_iface` starts port 0, then gives up, and returns
without any call of `rte_eth_dev_stop` or `rte_eth_dev_close` for port 0: the
counter `num_succ_ports` it hands to `close_iface_ports` is still `0`, because
`init_port` advances the pointer instead of the counter.  No bonded port is
created. -/
theorem init_iface_second_port_fails_no_rollback :
    init_iface env_start_fails plat_one 7 config_one iface_three [] =
      some (0, { iface_three with ports := none },
        [HwCall.rte_calloc "ports" 3,
         HwCall.eal_parse_pci_DomBDF "0000:01:00.0",
         HwCall.rte_eth_dev_get_port_by_addr "0000:01:00.0",
         HwCall.rte_eth_dev_configure 0 1 1,
         HwCall.rte_eth_rx_queue_setup 0 0 0 7,
         HwCall.rte_eth_tx_queue_setup 0 0 0,
         HwCall.rte_eth_dev_start 0,
         HwCall.rte_eth_link_get 0,
         HwCall.eal_parse_pci_DomBDF "0000:01:00.1",
         HwCall.rte_eth_dev_get_port_by_addr "0000:01:00.1",
         HwCall.rte_eth_dev_configure 1 1 1,
         HwCall.rte_eth_rx_queue_setup 1 0 0 7,
         HwCall.rte_eth_tx_queue_setup 1 0 0,
         HwCall.rte_eth_dev_start 1,
         HwCall.rte_free Freed.ports]) ∧
    (∀ r, init_iface env_start_fails plat_one 7 config_one iface_three [] = some r →
      HwCall.rte_eth_dev_start 0 ∈ r.2.2 ∧
      HwCall.rte_eth_dev_stop 0 ∉ r.2.2 ∧ HwCall.rte_eth_dev_close 0 ∉ r.2.2) := by
  have h : init_iface env_start_fails plat_one 7 config_one iface_three [] =
      some (0, { iface_three with ports := none },
        [HwCall.rte_calloc "ports" 3,
         HwCall.eal_parse_pci_DomBDF "0000:01:00.0",
         HwCall.rte_eth_dev_get_port_by_addr "0000:01:00.0",
         HwCall.rte_eth_dev_configure 0 1 1,
         HwCall.rte_eth_rx_queue_setup 0 0 0 7,
         HwCall.rte_eth_tx_queue_setup 0 0 0,
         HwCall.rte_eth_dev_start 0,
         HwCall.rte_eth_link_get 0,
         HwCall.eal_parse_pci_DomBDF "0000:01:00.1",
         HwCall.rte_eth_dev_get_port_by_addr "0000:01:00.1",
         HwCall.rte_eth_dev_configure 1 1 1,
         HwCall.rte_eth_rx_queue_setup 1 0 0 7,
         HwCall.rte_eth_tx_queue_setup 1 0 0,
         HwCall.rte_eth_dev_start 1,
         HwCall.rte_free Freed.ports]) := by decide
  refine ⟨h, ?_⟩
  intro r hr
  rw [h] at hr
  cases hr
  decide

/-- C4 (code bug): on an interface with one address, `init_iface` returns `0`,
the value that means success, when the address does not parse, when it does not
map to a port, and when the port cannot be configured. -/
theorem init_iface_failure_returns_zero :
    (init_iface env_parse_fails plat_one 7 config_one iface_single []).map (fun r => r.1)
      = some 0 ∧
    (init_iface env_resolve_fails plat_one 7 config_one iface_single []).map (fun r => r.1)
      = some 0 ∧
    (init_iface env_configure_fails plat_one 7 config_one iface_single []).map (fun r => r.1)
      = some 0 ∧
    init_iface env_parse_fails plat_one 7 config_one iface_single [] =
      some (0, { iface_single with ports := none },
        [HwCall.rte_calloc "ports" 1, HwCall.eal_parse_pci_DomBDF "0000:02:00.0",
         HwCall.rte_free Freed.ports]) := by
  decide

/-- C5 (code bug): on an interface with three ports that all come up, when
adding the third port to the bonded port fails, `init_iface` removes the two
slaves added, frees the bonded port and returns the error, but calls neither
`rte_eth_dev_stop` nor `rte_eth_dev_close` for any of the three ports it
started. -/
theorem init_iface_slave_add_fails_ports_left_started :
    init_iface env_slave_fails plat_one 7 config_one iface_three [] =
      some (-1, { iface_three with ports := none, id := 4 },
        [HwCall.rte_calloc "ports" 3,
         HwCall.eal_parse_pci_DomBDF "0000:01:00.0",
         HwCall.rte_eth_dev_get_port_by_addr "0000:01:00.0",
         HwCall.rte_eth_dev_configure 0 1 1,
         HwCall.rte_eth_rx_queue_setup 0 0 0 7,
         HwCall.rte_eth_tx_queue_setup 0 0 0,
         HwCall.rte_eth_dev_start 0,
         HwCall.rte_eth_link_get 0,
         HwCall.eal_parse_pci_DomBDF "0000:01:00.1",
         HwCall.rte_eth_dev_get_port_by_addr "0000:01:00.1",
         HwCall.rte_eth_dev_configure 1 1 1,
         HwCall.rte_eth_rx_queue_setup 1 0 0 7,
         HwCall.rte_eth_tx_queue_setup 1 0 0,
         HwCall.rte_eth_dev_start 1,
         HwCall.rte_eth_link_get 1,
         HwCall.eal_parse_pci_DomBDF "0000:01:00.2",
         HwCall.rte_eth_dev_get_port_by_addr "0000:01:00.2",
         HwCall.rte_eth_dev_configure 2 1 1,
         HwCall.rte_eth_rx_queue_setup 2 0 0 7,
         HwCall.rte_eth_tx_queue_setup 2 0 0,
         HwCall.rte_eth_dev_start 2,
         HwCall.rte_eth_link_get 2,
         HwCall.rte_eth_bond_create (some "front") 0 0,
         HwCall.rte_eth_bond_slave_add 4 0,
         HwCall.rte_eth_bond_slave_add 4 1,
         HwCall.rte_eth_bond_slave_add 4 2,
         HwCall.rte_eth_bond_slave_remove 4 0,
         HwCall.rte_eth_bond_slave_remove 4 1,
         HwCall.rte_eth_bond_free (some "front"),
         HwCall.rte_free Freed.ports]) ∧
    (init_iface env_slave_fails plat_one 7 config_one iface_three []).map
      (fun r => (List.range 3).map (fun p =>
        (decide (HwCall.rte_eth_dev_start p ∈ r.2.2),
         decide (HwCall.rte_eth_dev_stop p ∈ r.2.2),
         decide (HwCall.rte_eth_dev_close p ∈ r.2.2)))) =
      some [(true, false, false), (true, false, false), (true, false, false)] := by
  decide

/-- C7 (code bug): with `wait_for_link` set and a link that never comes up,
`init_port` asks for the link status seven times and sleeps six times before it
returns `-1`; without `wait_for_link` it asks once and returns `-1` without
sleeping. -/
theorem init_port_link_down_seven_polls :
    init_port env_link_down plat_one 7 config_one 4 none 1 [] =
      some (-1, [HwCall.rte_eth_dev_configure 4 1 1,
        HwCall.rte_eth_rx_queue_setup 4 0 0 7, HwCall.rte_eth_tx_queue_setup 4 0 0,
        HwCall.rte_eth_dev_start 4,
        HwCall.rte_eth_link_get 4, HwCall.sleep 1,
        HwCall.rte_eth_link_get 4, HwCall.sleep 1,
        HwCall.rte_eth_link_get 4, HwCall.sleep 1,
        HwCall.rte_eth_link_get 4, HwCall.sleep 1,
        HwCall.rte_eth_link_get 4, HwCall.sleep 1,
        HwCall.rte_eth_link_get 4, HwCall.sleep 1,
        HwCall.rte_eth_link_get 4]) ∧
    (init_port env_link_down plat_one 7 config_one 4 none 1 []).map
      (fun r => (r.2.count (HwCall.rte_eth_link_get 4), r.2.count (HwCall.sleep 1))) =
      some (7, 6) ∧
    init_port env_link_down plat_one 7 config_one 4 (some 0) 0 [] =
      some (-1, [HwCall.rte_eth_dev_configure 4 1 1,
        HwCall.rte_eth_rx_queue_setup 4 0 0 7, HwCall.rte_eth_tx_queue_setup 4 0 0,
        HwCall.rte_eth_dev_start 4, HwCall.rte_eth_link_get 4]) := by
  decide

/-! ### The defects behind C3, C4, C5 and C7, for every environment -/

theorem init_iface_loop_no_stop (env : Env) (plat : Platform) (fuel : Nat) (nc : net_config)
    (addrs : List String) :
    ∀ (todo i : Nat) (ports : List Nat) (tr : Trace) (r : Bool × List Nat × Trace),
      init_iface_loop env plat fuel nc addrs todo i ports tr = some r →
        extends_by (fun e => no_stop_call e = true) tr r.2.2 := by
  intro todo
  induction todo with
  | zero =>
    intro i ports tr r h
    simp only [init_iface_loop, Option.some.injEq] at h
    subst h
    exact extends_by_refl _ _
  | succ n ih =>
    intro i ports tr r h
    simp only [init_iface_loop] at h
    have h0 : extends_by (fun e => no_stop_call e = true) tr
        (tr ++ [HwCall.eal_parse_pci_DomBDF (addrs.getD i "")]) :=
      extends_by_one _ _ rfl
    have h1 : extends_by (fun e => no_stop_call e = true)
        (tr ++ [HwCall.eal_parse_pci_DomBDF (addrs.getD i "")])
        (tr ++ [HwCall.eal_parse_pci_DomBDF (addrs.getD i "")] ++
          [HwCall.rte_eth_dev_get_port_by_addr (addrs.getD i "")]) :=
      extends_by_one _ _ rfl
    split at h
    · simp only [Option.some.injEq] at h
      subst h
      exact h0
    · split at h
      · simp only [Option.some.injEq] at h
        subst h
        exact extends_by_trans h0 h1
      · split at h
        · cases h
        · next ret2 tr3 hport =>
          have hpc : extends_by (fun e => no_stop_call e = true) _ tr3 :=
            extends_by_mono (fun e he => by cases e <;> simp [port_call] at he <;> rfl)
              (init_port_calls _ _ _ _ _ _ _ _ _ hport)
          split at h
          · simp only [Option.some.injEq] at h
            subst h
            exact extends_by_trans h0 (extends_by_trans h1 hpc)
          · exact extends_by_trans h0 (extends_by_trans h1
              (extends_by_trans hpc (ih _ _ _ _ h)))

theorem close_ports_zero (iface : gatekeeper_if) (ret : Int) (tr : Trace) :
    init_iface_close_ports iface 0 ret tr =
      (ret, { iface with ports := none }, tr ++ [HwCall.rte_free Freed.ports]) := by
  simp [init_iface_close_ports, close_iface_ports]

theorem close_iface_id_no_stop (iface : gatekeeper_if) (n : Nat) (tr : Trace) :
    extends_by (fun e => no_stop_call e = true) tr (close_iface_id iface n tr) := by
  simp only [close_iface_id]
  split
  · exact extends_by_refl _ _
  · refine ⟨(List.range n).map
        (fun i => HwCall.rte_eth_bond_slave_remove iface.id (port_at iface i)) ++
        [HwCall.rte_eth_bond_free iface.name], by simp, ?_⟩
    intro e he
    rcases List.mem_append.1 he with h | h
    · obtain ⟨k, _, rfl⟩ := List.mem_map.1 h
      rfl
    · rw [List.mem_singleton.1 h]
      rfl

theorem add_slaves_no_stop (env : Env) (iface : gatekeeper_if) :
    ∀ (todo i added : Nat) (tr : Trace),
      extends_by (fun e => no_stop_call e = true) tr
        (add_slaves env iface todo i added tr).2.2 := by
  intro todo
  induction todo with
  | zero => intro i added tr; exact extends_by_refl _ _
  | succ n ih =>
    intro i added tr
    simp only [add_slaves]
    have h1 : extends_by (fun e => no_stop_call e = true) tr
        (tr ++ [HwCall.rte_eth_bond_slave_add iface.id (port_at iface i)]) :=
      extends_by_one _ _ rfl
    split
    · exact h1
    · exact extends_by_trans h1 (ih _ _ _)

/-- Whatever the environment answers and whichever step fails, `init_iface`
never calls `rte_eth_dev_stop` or `rte_eth_dev_close`: the count it passes to
`close_iface_ports` is always `0`. -/
theorem init_iface_never_stops (env : Env) (plat : Platform) (fuel : Nat) (nc : net_config)
    (iface : gatekeeper_if) (tr : Trace) (r : Int × gatekeeper_if × Trace)
    (h : init_iface env plat fuel nc iface tr = some r) :
    extends_by (fun e => no_stop_call e = true) tr r.2.2 := by
  simp only [init_iface, close_ports_zero, init_iface_close_id] at h
  have h0 : extends_by (fun e => no_stop_call e = true) tr
      (tr ++ [HwCall.rte_calloc "ports" iface.num_ports]) := extends_by_one _ _ rfl
  have hfree : ∀ t : Trace, extends_by (fun e => no_stop_call e = true) t
      (t ++ [HwCall.rte_free Freed.ports]) := fun t => extends_by_one _ _ rfl
  split at h
  · cases h; exact h0
  · split at h
    · cases h
    · next ports tr1 hloop =>
      cases h
      exact extends_by_trans h0 (extends_by_trans
        (init_iface_loop_no_stop _ _ _ _ _ _ _ _ _ _ hloop) (hfree _))
    · next ports tr1 hloop =>
      have hl := extends_by_trans h0 (init_iface_loop_no_stop _ _ _ _ _ _ _ _ _ _ hloop)
      have hb : extends_by (fun e => no_stop_call e = true) tr1
          (tr1 ++ [HwCall.rte_eth_bond_create iface.name BONDING_MODE_ROUND_ROBIN 0]) :=
        extends_by_one _ _ rfl
      split at h
      · cases h; exact hl
      · split at h
        · cases h
          exact extends_by_trans hl (extends_by_trans hb (hfree _))
        · split at h
          · next ret3 added tr3 hadd =>
            cases h
            have hs := add_slaves_no_stop env
              { iface with ports := some ports,
                           id := ((env tr1 (HwCall.rte_eth_bond_create iface.name
                              BONDING_MODE_ROUND_ROBIN 0)).ret).toNat % 256 }
              iface.num_ports 0 0
              (tr1 ++ [HwCall.rte_eth_bond_create iface.name BONDING_MODE_ROUND_ROBIN 0])
            rw [hadd] at hs
            exact extends_by_trans hl (extends_by_trans hb (extends_by_trans hs
              (extends_by_trans (close_iface_id_no_stop _ _ _) (hfree _))))
          · next added tr3 hadd =>
            have hs := add_slaves_no_stop env
              { iface with ports := some ports,
                           id := ((env tr1 (HwCall.rte_eth_bond_create iface.name
                              BONDING_MODE_ROUND_ROBIN 0)).ret).toNat % 256 }
              iface.num_ports 0 0
              (tr1 ++ [HwCall.rte_eth_bond_create iface.name BONDING_MODE_ROUND_ROBIN 0])
            rw [hadd] at hs
            split at h
            · cases h
            · next ret4 tr4 hport =>
              have hpc : extends_by (fun e => no_stop_call e = true) tr3 tr4 :=
                extends_by_mono (fun e he => by cases e <;> simp [port_call] at he <;> rfl)
                  (init_port_calls _ _ _ _ _ _ _ _ _ hport)
              split at h
              · cases h
                exact extends_by_trans hl (extends_by_trans hb (extends_by_trans hs
                  (extends_by_trans hpc
                    (extends_by_trans (close_iface_id_no_stop _ _ _) (hfree _)))))
              · cases h
                exact extends_by_trans hl (extends_by_trans hb (extends_by_trans hs hpc))

/-- Whatever the environment answers, when the first loop of `init_iface` is
left through `goto close_ports` (an address does not parse or resolve, or a
port does not come up), `init_iface` returns `0`. -/
theorem init_iface_loop_failure_returns_zero (env : Env) (plat : Platform) (fuel : Nat)
    (nc : net_config) (iface : gatekeeper_if) (tr : Trace) (ports : List Nat) (tr1 : Trace)
    (halloc : (env tr (HwCall.rte_calloc "ports" iface.num_ports)).out ≠ 0)
    (hloop : init_iface_loop env plat fuel nc (iface.pci_addrs.getD []) iface.num_ports 0
      (List.replicate iface.num_ports 0) (tr ++ [HwCall.rte_calloc "ports" iface.num_ports]) =
        some (false, ports, tr1)) :
    init_iface env plat fuel nc iface tr =
      some (0, { iface with ports := none }, tr1 ++ [HwCall.rte_free Freed.ports]) := by
  simp only [init_iface, halloc, if_false, hloop, close_ports_zero]

/-- Whatever else the environment answers: with `wait_for_link` set and a link
that is down at every poll, the link loop polls seven times, sleeps six times
and gives up. -/
theorem link_loop_link_down (env : Env) (port_id : Nat) (w : Int) (fuel : Nat) (tr : Trace)
    (hw : w ≠ 0) (hdown : ∀ t, (env t (HwCall.rte_eth_link_get port_id)).out = 0)
    (hfuel : NUM_ATTEMPTS_LINK_GET + 2 ≤ fuel) :
    link_loop env port_id w fuel 0 tr =
      some (-1, tr ++ [HwCall.rte_eth_link_get port_id, HwCall.sleep 1,
        HwCall.rte_eth_link_get port_id, HwCall.sleep 1,
        HwCall.rte_eth_link_get port_id, HwCall.sleep 1,
        HwCall.rte_eth_link_get port_id, HwCall.sleep 1,
        HwCall.rte_eth_link_get port_id, HwCall.sleep 1,
        HwCall.rte_eth_link_get port_id, HwCall.sleep 1,
        HwCall.rte_eth_link_get port_id]) := by
  obtain ⟨k, rfl⟩ : ∃ k, fuel = k + 7 := ⟨fuel - 7, by
    simp only [NUM_ATTEMPTS_LINK_GET] at hfuel; omega⟩
  simp [link_loop, hdown, hw, NUM_ATTEMPTS_LINK_GET]

/-- C8: for an interface with exactly one configured address, when the `ports`
array is allocated, the address parses and maps to a port, and `init_port`
brings that port up (returns a value that is not negative), `init_iface`
returns `0` and leaves `iface->ports[0]` and `iface->id` both equal to that
port; none of the calls it makes creates a bonded port or adds a slave. -/
theorem init_iface_single_port (env : Env) (plat : Platform) (fuel : Nat) (nc : net_config)
    (iface : gatekeeper_if) (tr : Trace) (addr : String) (ret : Int) (tr4 : Trace)
    (hn : iface.num_ports = 1) (haddr : iface.pci_addrs = some [addr])
    (halloc : (env tr (HwCall.rte_calloc "ports" 1)).out ≠ 0)
    (hparse : 0 ≤ (env (tr ++ [HwCall.rte_calloc "ports" 1])
      (HwCall.eal_parse_pci_DomBDF addr)).ret)
    (hresolve : 0 ≤ (env (tr ++ [HwCall.rte_calloc "ports" 1] ++
      [HwCall.eal_parse_pci_DomBDF addr]) (HwCall.rte_eth_dev_get_port_by_addr addr)).ret)
    (hup : init_port env plat fuel nc
      ((env (tr ++ [HwCall.rte_calloc "ports" 1] ++ [HwCall.eal_parse_pci_DomBDF addr])
        (HwCall.rte_eth_dev_get_port_by_addr addr)).out % 256) (some 0) 0
      (tr ++ [HwCall.rte_calloc "ports" 1] ++ [HwCall.eal_parse_pci_DomBDF addr] ++
        [HwCall.rte_eth_dev_get_port_by_addr addr]) = some (ret, tr4))
    (hret : 0 ≤ ret) :
    ∃ iface2,
      init_iface env plat fuel nc iface tr = some (0, iface2, tr4) ∧
      iface2.ports = some [iface2.id] ∧
      iface2.id = (env (tr ++ [HwCall.rte_calloc "ports" 1] ++
        [HwCall.eal_parse_pci_DomBDF addr])
        (HwCall.rte_eth_dev_get_port_by_addr addr)).out % 256 ∧
      iface2.num_ports = 1 ∧
      ∀ e ∈ tr4.drop tr.length, bond_call e = false := by
  have h1 : ¬ (env (tr ++ [HwCall.rte_calloc "ports" 1])
      (HwCall.eal_parse_pci_DomBDF addr)).ret < 0 := by omega
  have h2 : ¬ (env (tr ++ [HwCall.rte_calloc "ports" 1] ++
      [HwCall.eal_parse_pci_DomBDF addr]) (HwCall.rte_eth_dev_get_port_by_addr addr)).ret < 0 := by
    omega
  have h3 : ¬ ret < 0 := by omega
  have hloop : init_iface_loop env plat fuel nc [addr] 1 0 [0]
      (tr ++ [HwCall.rte_calloc "ports" 1]) =
      some (true, [(env (tr ++ [HwCall.rte_calloc "ports" 1] ++
        [HwCall.eal_parse_pci_DomBDF addr])
        (HwCall.rte_eth_dev_get_port_by_addr addr)).out % 256], tr4) := by
    simp only [init_iface_loop, List.getD_cons_zero, h1, h2, if_false, hup, h3, List.set]
  have hres : init_iface env plat fuel nc iface tr =
      some (0, { iface with
        ports := some [(env (tr ++ [HwCall.rte_calloc "ports" 1] ++
          [HwCall.eal_parse_pci_DomBDF addr])
          (HwCall.rte_eth_dev_get_port_by_addr addr)).out % 256],
        id := (env (tr ++ [HwCall.rte_calloc "ports" 1] ++
          [HwCall.eal_parse_pci_DomBDF addr])
          (HwCall.rte_eth_dev_get_port_by_addr addr)).out % 256 }, tr4) := by
    simp only [init_iface, hn, haddr, halloc, if_false, Option.getD_some, List.replicate,
      hloop, if_true, port_at, List.getD_cons_zero]
  refine ⟨_, hres, rfl, rfl, hn, ?_⟩
  have hpc := init_port_calls _ _ _ _ _ _ _ _ _ hup
  obtain ⟨evs, hevs, hall⟩ := hpc
  simp only at hevs
  have htr4 : tr4 = tr ++ ([HwCall.rte_calloc "ports" 1, HwCall.eal_parse_pci_DomBDF addr,
      HwCall.rte_eth_dev_get_port_by_addr addr] ++ evs) := by
    rw [hevs]; simp
  intro e he
  rw [htr4, List.drop_left] at he
  rcases List.mem_append.1 he with h | h
  · simp only [List.mem_cons, List.mem_singleton, List.not_mem_nil, or_false] at h
    rcases h with rfl | rfl | rfl <;> rfl
  · have := hall e h
    cases e <;> simp [port_call] at this <;> rfl

/-- C8, on a machine where every call succeeds. -/
theorem init_iface_single_port_witness :
    ∃ iface2,
      init_iface env_ok plat_one 7 config_one iface_single [] =
        some (0, iface2,
          [HwCall.rte_calloc "ports" 1, HwCall.eal_parse_pci_DomBDF "0000:02:00.0",
           HwCall.rte_eth_dev_get_port_by_addr "0000:02:00.0",
           HwCall.rte_eth_dev_configure 3 1 1, HwCall.rte_eth_rx_queue_setup 3 0 0 7,
           HwCall.rte_eth_tx_queue_setup 3 0 0, HwCall.rte_eth_dev_start 3,
           HwCall.rte_eth_link_get 3]) ∧
      iface2.ports = some [iface2.id] ∧
      iface2.id = (env_ok ([] ++ [HwCall.rte_calloc "ports" 1] ++
        [HwCall.eal_parse_pci_DomBDF "0000:02:00.0"])
        (HwCall.rte_eth_dev_get_port_by_addr "0000:02:00.0")).out % 256 ∧
      iface2.num_ports = 1 ∧
      ∀ e ∈ ([HwCall.rte_calloc "ports" 1, HwCall.eal_parse_pci_DomBDF "0000:02:00.0",
           HwCall.rte_eth_dev_get_port_by_addr "0000:02:00.0",
           HwCall.rte_eth_dev_configure 3 1 1, HwCall.rte_eth_rx_queue_setup 3 0 0 7,
           HwCall.rte_eth_tx_queue_setup 3 0 0, HwCall.rte_eth_dev_start 3,
           HwCall.rte_eth_link_get 3] : Trace).drop ([] : Trace).length,
        bond_call e = false :=
  init_iface_single_port env_ok plat_one 7 config_one iface_single [] "0000:02:00.0" 0 _
    (by decide) (by decide) (by decide) (by decide) (by decide) (by decide) (by decide)

/-! ### `gatekeeper_init_network` and `gatekeeper_free_network` -/

theorem init_pools_calls (env : Env) :
    ∀ (todo i : Nat) (pool : List Nat) (tr : Trace),
      extends_by (fun e => ∀ q, e ≠ HwCall.rte_eth_dev_start q) tr
        (init_pools env todo i pool tr).2.2 := by
  intro todo
  induction todo with
  | zero => intro i pool tr; exact extends_by_refl _ _
  | succ n ih =>
    intro i pool tr
    simp only [init_pools]
    have h1 : extends_by (fun e => ∀ q, e ≠ HwCall.rte_eth_dev_start q) tr
        (tr ++ [HwCall.rte_pktmbuf_pool_create i]) :=
      extends_by_one _ _ (by intro q hq; cases hq)
    split
    · exact ih _ _ _
    · split
      · exact h1
      · exact extends_by_trans h1 (ih _ _ _)

theorem init_network_body_success (env : Env) (plat : Platform) (fuel : Nat)
    (c : net_config) (tr0 : Trace) (ret : Int) (c1 : net_config) (tr1 : Trace)
    (h : init_network_body env plat fuel c tr0 = some (ret, c1, tr1))
    (hfront : c1.front.ports ≠ none) (hback : c1.back.ports ≠ none) (hret : ret = 0) :
    extends_by (fun e => iface_call c1.front e ∨ iface_call c1.back e) tr0 tr1 := by
  simp only [init_network_body] at h
  split at h
  · simp only [Option.some.injEq, Prod.mk.injEq] at h
    omega
  · next pool tr2 hpool =>
    have hp := init_pools_calls env c.numa_nodes 0 (c.gatekeeper_pktmbuf_pool.getD []) tr0
    rw [hpool] at hp
    split at h
    · cases h
    · next ret4 front tr4 hf =>
      split at h
      · simp only [Option.some.injEq, Prod.mk.injEq] at h
        omega
      · split at h
        · cases h
        · next ret5 back tr5 hb =>
          split at h
          · simp only [Option.some.injEq, Prod.mk.injEq] at h
            omega
          · simp only [Option.some.injEq, Prod.mk.injEq] at h
            obtain ⟨_, rfl, rfl⟩ := h
            obtain ⟨_, _, _, _, hfe⟩ := init_iface_success _ _ _ _ _ _ _ _ _ hf hfront
            obtain ⟨_, _, _, _, hbe⟩ := init_iface_success _ _ _ _ _ _ _ _ _ hb hback
            refine extends_by_trans (extends_by_mono ?_ hp) (extends_by_trans
              (extends_by_one _ _ ?_) (extends_by_trans (extends_by_mono ?_ hfe)
                (extends_by_mono ?_ hbe)))
            · intro e he
              exact Or.inl (fun q hq => absurd hq (he q))
            · exact Or.inl (fun q hq => by cases hq)
            · intro e he; exact Or.inl he
            · intro e he; exact Or.inr he

theorem init_network_success (env : Env) (plat : Platform) (fuel : Nat)
    (c : net_config) (tr0 : Trace) (c1 : net_config) (tr1 : Trace)
    (h : gatekeeper_init_network env plat fuel c tr0 = some (0, c1, tr1))
    (hfront : c1.front.ports ≠ none) (hback : c1.back.ports ≠ none) :
    extends_by (fun e => iface_call c1.front e ∨ iface_call c1.back e) tr0 tr1 := by
  simp only [gatekeeper_init_network] at h
  split at h
  · split at h
    · simp at h
    · refine extends_by_trans (extends_by_one _ _ ?_)
        (init_network_body_success _ _ _ _ _ _ _ _ h hfront hback rfl)
      exact Or.inl (fun q hq => by cases hq)
  · exact init_network_body_success _ _ _ _ _ _ _ _ h hfront hback rfl

theorem close_iface_trace (iface : gatekeeper_if) (tr : Trace) :
    (close_iface iface tr).2 = tr ++ close_iface_calls iface := by
  simp only [close_iface_calls, close_iface, close_iface_id, close_iface_ports, free_pci_addrs]
  split <;> simp [List.append_assoc]

theorem close_iface_fields (iface : gatekeeper_if) (tr : Trace) :
    (close_iface iface tr).1.ports = none ∧ (close_iface iface tr).1.pci_addrs = none ∧
      (close_iface iface tr).1.name = none :=
  ⟨rfl, rfl, rfl⟩

theorem close_iface_closes (iface : gatekeeper_if) :
    closes_iface iface (close_iface_calls iface) := by
  have hstop : ∀ k, k < iface.num_ports →
      [HwCall.rte_eth_dev_stop (port_at iface k),
        HwCall.rte_eth_dev_close (port_at iface k)].Sublist
        ((List.range iface.num_ports).map (stop_close iface)).flatten := by
    intro k hk
    apply List.sublist_flatten_of_mem
    exact List.mem_map.2 ⟨k, List.mem_range.2 hk, rfl⟩
  refine ⟨?_, ?_, ?_, ?_, ?_, ?_⟩
  rotate_left 2
  · simp only [close_iface_calls, close_iface, close_iface_id, close_iface_ports,
      free_pci_addrs]
    split <;> simp
  · intro k hk
    simp only [close_iface_calls, close_iface, close_iface_id, close_iface_ports,
      free_pci_addrs]
    split <;> simp [hk]
  · simp only [close_iface_calls, close_iface, close_iface_id, close_iface_ports,
      free_pci_addrs]
    split <;> simp
  · simp only [close_iface_calls, close_iface, close_iface_id, close_iface_ports,
      free_pci_addrs]
    split <;> simp
  · intro k hk
    simp only [close_iface_calls, close_iface, close_iface_id, close_iface_ports,
      free_pci_addrs]
    split
    · simp only [List.nil_append, List.append_assoc]
      exact List.sublist_append_of_sublist_left (hstop k hk)
    · simp only [List.nil_append, List.append_assoc]
      apply List.sublist_append_of_sublist_right
      apply List.sublist_append_of_sublist_right
      exact List.sublist_append_of_sublist_left (hstop k hk)
  · intro hn k hk
    simp only [close_iface_calls, close_iface, close_iface_id, close_iface_ports,
      free_pci_addrs, hn, if_false, List.nil_append, List.append_assoc]
    have h1 : [HwCall.rte_eth_bond_slave_remove iface.id (port_at iface k)].Sublist
        ((List.range iface.num_ports).map
          (fun i => HwCall.rte_eth_bond_slave_remove iface.id (port_at iface i))) :=
      List.singleton_sublist.2 (List.mem_map.2 ⟨k, List.mem_range.2 hk, rfl⟩)
    have h3 : [HwCall.rte_eth_bond_free iface.name].Sublist
        ([HwCall.rte_eth_bond_free iface.name] ++
          (((List.range iface.num_ports).map (stop_close iface)).flatten ++
            ([HwCall.rte_free Freed.ports] ++
              ((List.range iface.num_ports).map (fun i => HwCall.rte_free (Freed.pci_addr i)) ++
                ([HwCall.rte_free Freed.pci_addrs] ++ [HwCall.rte_free Freed.name]))))) :=
      List.sublist_append_of_sublist_left (List.Sublist.refl _)
    have h2 := List.Sublist.append h1 h3
    simpa using h2

theorem close_iface_frees_bond (iface : gatekeeper_if) (hn : iface.num_ports ≠ 1) :
    HwCall.rte_eth_bond_free iface.name ∈ close_iface_calls iface := by
  simp [close_iface_calls, close_iface, close_iface_id, close_iface_ports, free_pci_addrs, hn]

theorem close_iface_no_start (iface : gatekeeper_if) :
    ∀ e ∈ close_iface_calls iface, ∀ q, e ≠ HwCall.rte_eth_dev_start q := by
  intro e he q hq
  subst hq
  simp only [close_iface_calls, close_iface, close_iface_id, close_iface_ports,
    free_pci_addrs] at he
  split at he <;> simp [stop_close] at he

/-- C9: after a fully successful `gatekeeper_init_network` on the configuration
singleton (it returns `0` and leaves the `ports` array of both interfaces
allocated), `gatekeeper_free_network` first tears down the back interface and
then the front interface: for each of them every physical port is stopped and
then closed and, unless the interface has exactly one port, every physical port
is removed from the bonded port before the bonded port is freed.  Every port
that was started during the initialisation is thereby stopped and closed, or is
the bonded port of an interface and is freed, and no port is started again.
The `ports` array, the addresses, the address list and the name of both
interfaces are handed to `rte_free`, and the three pointers are `NULL`
afterwards. -/
theorem free_network_after_init (env : Env) (plat : Platform) (fuel : Nat)
    (config : net_config) (tr0 : Trace) (c1 : net_config) (tr1 : Trace)
    (hinit : gatekeeper_init_network env plat fuel config tr0 = some (0, c1, tr1))
    (hfront : c1.front.ports ≠ none) (hback : c1.back.ports ≠ none) :
    ∃ evs_back evs_front,
      (gatekeeper_free_network c1 tr1).2 = tr1 ++ evs_back ++ evs_front ∧
      closes_iface c1.back evs_back ∧ closes_iface c1.front evs_front ∧
      (∀ q, HwCall.rte_eth_dev_start q ∈ tr1.drop tr0.length →
        [HwCall.rte_eth_dev_stop q, HwCall.rte_eth_dev_close q].Sublist
            (evs_back ++ evs_front) ∨
        (c1.front.num_ports ≠ 1 ∧ q = c1.front.id ∧
          HwCall.rte_eth_bond_free c1.front.name ∈ evs_front) ∨
        (c1.back.num_ports ≠ 1 ∧ q = c1.back.id ∧
          HwCall.rte_eth_bond_free c1.back.name ∈ evs_back)) ∧
      (∀ q, HwCall.rte_eth_dev_start q ∉ evs_back ++ evs_front) ∧
      (gatekeeper_free_network c1 tr1).1.front.ports = none ∧
      (gatekeeper_free_network c1 tr1).1.front.pci_addrs = none ∧
      (gatekeeper_free_network c1 tr1).1.front.name = none ∧
      (gatekeeper_free_network c1 tr1).1.back.ports = none ∧
      (gatekeeper_free_network c1 tr1).1.back.pci_addrs = none ∧
      (gatekeeper_free_network c1 tr1).1.back.name = none := by
  refine ⟨close_iface_calls c1.back, close_iface_calls c1.front, ?_,
    close_iface_closes _, close_iface_closes _, ?_, ?_, rfl, rfl, rfl, rfl, rfl, rfl⟩
  · simp only [gatekeeper_free_network]
    rw [close_iface_trace, close_iface_trace]
  · intro q hq
    have hev := extends_by_drop (init_network_success _ _ _ _ _ _ _ hinit hfront hback)
      _ hq
    rcases hev with h | h
    · rcases h q rfl with ⟨k, hk, hpk⟩ | ⟨hn, hid⟩
      · left
        rw [← hpk]
        exact List.sublist_append_of_sublist_right ((close_iface_closes c1.front).1 k hk)
      · right; left
        exact ⟨hn, hid, close_iface_frees_bond _ hn⟩
    · rcases h q rfl with ⟨k, hk, hpk⟩ | ⟨hn, hid⟩
      · left
        rw [← hpk]
        exact List.sublist_append_of_sublist_left ((close_iface_closes c1.back).1 k hk)
      · right; right
        exact ⟨hn, hid, close_iface_frees_bond _ hn⟩
  · intro q hq
    rcases List.mem_append.1 hq with h | h
    · exact close_iface_no_start _ _ h q rfl
    · exact close_iface_no_start _ _ h q rfl

/-- C9, on a machine where every call succeeds: a front interface of three
bonded ports and a back interface of one port. -/
theorem free_network_after_init_witness :
    ∃ evs_back evs_front,
      (gatekeeper_free_network config_one_up trace_one_up).2 =
        trace_one_up ++ evs_back ++ evs_front ∧
      closes_iface config_one_up.back evs_back ∧
      closes_iface config_one_up.front evs_front ∧
      (∀ q, HwCall.rte_eth_dev_start q ∈ trace_one_up.drop ([] : Trace).length →
        [HwCall.rte_eth_dev_stop q, HwCall.rte_eth_dev_close q].Sublist
            (evs_back ++ evs_front) ∨
        (config_one_up.front.num_ports ≠ 1 ∧ q = config_one_up.front.id ∧
          HwCall.rte_eth_bond_free config_one_up.front.name ∈ evs_front) ∨
        (config_one_up.back.num_ports ≠ 1 ∧ q = config_one_up.back.id ∧
          HwCall.rte_eth_bond_free config_one_up.back.name ∈ evs_back)) ∧
      (∀ q, HwCall.rte_eth_dev_start q ∉ evs_back ++ evs_front) ∧
      (gatekeeper_free_network config_one_up trace_one_up).1.front.ports = none ∧
      (gatekeeper_free_network config_one_up trace_one_up).1.front.pci_addrs = none ∧
      (gatekeeper_free_network config_one_up trace_one_up).1.front.name = none ∧
      (gatekeeper_free_network config_one_up trace_one_up).1.back.ports = none ∧
      (gatekeeper_free_network config_one_up trace_one_up).1.back.pci_addrs = none ∧
      (gatekeeper_free_network config_one_up trace_one_up).1.back.name = none :=
  free_network_after_init env_ok plat_one 7 config_one [] config_one_up trace_one_up
    (by decide) (by decide) (by decide)

/-! ### Queue allocator -/

theorem alloc_step_other (Q : Nat) (s : QueueAlloc) (core c : Nat) (h : c ≠ core) :
    (alloc_step Q s core).pc c = s.pc c ∧ (alloc_step Q s core).queues c = s.queues c := by
  simp only [alloc_step]
  split
  · simp [Function.update, h]
  · split <;> simp [Function.update, h]
  · simp

theorem alloc_run_other (Q : Nat) (c : Nat) :
    ∀ (sched : List Nat) (s : QueueAlloc), c ∉ sched →
      (alloc_run Q sched s).pc c = s.pc c ∧ (alloc_run Q sched s).queues c = s.queues c := by
  intro sched
  induction sched with
  | nil => intro s _; exact ⟨rfl, rfl⟩
  | cons a rest ih =>
    intro s hc
    have h1 : c ≠ a := fun h => hc (by simp [h])
    have h2 : c ∉ rest := fun h => hc (by simp [h])
    obtain ⟨i1, i2⟩ := ih (alloc_step Q s a) h2
    obtain ⟨s1, s2⟩ := alloc_step_other Q s a c h1
    simp only [alloc_run, List.foldl_cons] at i1 i2 ⊢
    exact ⟨i1.trans s1, i2.trans s2⟩

theorem filterMap_update_perm (f : Nat → AllocPc) (c : Nat) (p : AllocPc) (x : Nat)
    (hp : alloc_held p = some x) (hf : alloc_held (f c) = none) :
    ∀ (cores : List Nat), cores.Nodup → c ∈ cores →
      (cores.filterMap (fun k => alloc_held (Function.update f c p k))).Perm
        (x :: cores.filterMap (fun k => alloc_held (f k))) := by
  intro cores
  induction cores with
  | nil => intro _ h; simp at h
  | cons a rest ih =>
    intro hnd hc
    have hnd2 := List.nodup_cons.1 hnd
    by_cases hac : a = c
    · subst hac
      have hrest : rest.filterMap (fun k => alloc_held (Function.update f a p k)) =
          rest.filterMap (fun k => alloc_held (f k)) := by
        apply List.filterMap_congr
        intro k hk
        have : k ≠ a := fun h => hnd2.1 (h ▸ hk)
        simp [Function.update, this]
      simp only [List.filterMap_cons, Function.update_same, hp, hf, hrest]
      exact List.Perm.refl _
    · have hc2 : c ∈ rest := by
        rcases List.mem_cons.1 hc with h | h
        · exact absurd h.symm hac
        · exact h
      have ih2 := ih hnd2.2 hc2
      have hupd : Function.update f c p a = f a := by simp [Function.update, hac]
      simp only [List.filterMap_cons, hupd]
      cases hfa : alloc_held (f a) with
      | none => simpa using ih2
      | some y =>
        simp only
        exact (List.Perm.cons y ih2).trans (List.Perm.swap x y _)

theorem filterMap_update_same (f : Nat → AllocPc) (c : Nat) (p : AllocPc)
    (hp : alloc_held p = alloc_held (f c)) (cores : List Nat) :
    cores.filterMap (fun k => alloc_held (Function.update f c p k)) =
      cores.filterMap (fun k => alloc_held (f k)) := by
  apply List.filterMap_congr
  intro k _
  by_cases h : k = c
  · subst h; simp [hp]
  · simp [Function.update, h]

/-- The values held by the cores that have incremented the counter are exactly
`0`, ..., `counter - 1`, each held once: one atomic step keeps this true. -/
theorem alloc_step_inv (Q : Nat) (cores : List Nat) (hnd : cores.Nodup) (s : QueueAlloc)
    (c : Nat) (hc : c ∈ cores)
    (h : (cores.filterMap (fun k => alloc_held (s.pc k))).Perm (List.range s.counter)) :
    (cores.filterMap (fun k => alloc_held ((alloc_step Q s c).pc k))).Perm
      (List.range (alloc_step Q s c).counter) := by
  simp only [alloc_step]
  split
  · next hpc =>
    simp only
    have h1 := filterMap_update_perm s.pc c (AllocPc.fetched s.counter) s.counter rfl
      (by rw [hpc]; rfl) cores hnd hc
    refine h1.trans ?_
    rw [List.range_succ]
    exact ((List.Perm.cons _ h).trans (List.perm_append_singleton _ _).symm)
  · next v hpc =>
    have h1 := filterMap_update_same s.pc c (AllocPc.finished v) (by rw [hpc]; rfl) cores
    split
    · simp only; rw [h1]; exact h
    · simp only; rw [h1]; exact h
  · exact h

theorem alloc_run_inv (Q : Nat) (cores : List Nat) (hnd : cores.Nodup) :
    ∀ (sched : List Nat) (s : QueueAlloc), (∀ c ∈ sched, c ∈ cores) →
      (cores.filterMap (fun k => alloc_held (s.pc k))).Perm (List.range s.counter) →
      (cores.filterMap (fun k => alloc_held ((alloc_run Q sched s).pc k))).Perm
        (List.range (alloc_run Q sched s).counter) := by
  intro sched
  induction sched with
  | nil => intro s _ h; exact h
  | cons a rest ih =>
    intro s hsub h
    simp only [alloc_run, List.foldl_cons]
    exact ih (alloc_step Q s a) (fun c hc => hsub c (by simp [hc]))
      (alloc_step_inv Q cores hnd s a (hsub a (by simp)) h)

theorem alloc_results_eq (Q : Nat) (s : QueueAlloc) :
    ∀ (cores : List Nat), (∀ c ∈ cores, alloc_done s c = true) →
      cores.map (alloc_result Q s) =
        (cores.filterMap (fun k => alloc_held (s.pc k))).map (alloc_outcome Q) := by
  intro cores
  induction cores with
  | nil => intro _; rfl
  | cons a rest ih =>
    intro hd
    have ha := hd a (by simp)
    have ih2 := ih (fun c hc => hd c (by simp [hc]))
    simp only [alloc_done] at ha
    cases hpc : s.pc a with
    | idle => rw [hpc] at ha; cases ha
    | fetched v => rw [hpc] at ha; cases ha
    | finished v =>
      simp only [List.map_cons, List.filterMap_cons, hpc, alloc_held, ih2]
      simp [alloc_result, hpc, alloc_outcome]

theorem countP_outcome (Q : Nat) :
    ∀ N, ((List.range N).map (alloc_outcome Q)).countP Option.isSome = min N Q ∧
      ((List.range N).map (alloc_outcome Q)).countP Option.isNone = N - Q := by
  intro N
  induction N with
  | zero => simp
  | succ n ih =>
    rw [List.range_succ, List.map_append, List.countP_append, List.countP_append, ih.1, ih.2]
    by_cases h : n < Q
    · simp [alloc_outcome, h]; omega
    · simp [alloc_outcome, h]; omega

/-- C10 (on the allocator as the specification describes it): take any
interleaving of the atomic steps of allocator calls on one interface and
direction with `Q` queues, in which every core that takes a step completes its
call; let `N` be the number of calling cores.  The results of the `N` calls are,
up to order, the outcomes of the pre-increment values `0`, ..., `N - 1`.  So with
`N ≤ Q` the indices returned are exactly `0`, ..., `N - 1`, without repeats, and with
`N > Q` exactly `Q` calls return an index and the other `N - Q` report
exhaustion.  For a core that took no step `get_queue_id` returns
`GATEKEEPER_QUEUE_UNALLOCATED`, which is `INT16_MIN`. -/
theorem queue_alloc_interleaving (Q : Nat) (sched : List Nat)
    (hdone : ∀ c ∈ sched, alloc_done (alloc_run Q sched alloc_init) c = true) :
    ((sched.dedup).map (alloc_result Q (alloc_run Q sched alloc_init))).Perm
      ((List.range sched.dedup.length).map (alloc_outcome Q)) ∧
    (sched.dedup.length ≤ Q →
      ((sched.dedup).map (alloc_result Q (alloc_run Q sched alloc_init))).Perm
        ((List.range sched.dedup.length).map some) ∧
      ((sched.dedup).map (alloc_result Q (alloc_run Q sched alloc_init))).Nodup) ∧
    (Q < sched.dedup.length →
      ((sched.dedup).map (alloc_result Q (alloc_run Q sched alloc_init))).countP
        Option.isSome = Q ∧
      ((sched.dedup).map (alloc_result Q (alloc_run Q sched alloc_init))).countP
        Option.isNone = sched.dedup.length - Q) ∧
    (∀ core, core ∉ sched →
      get_queue_id (alloc_run Q sched alloc_init) core = GATEKEEPER_QUEUE_UNALLOCATED) ∧
    GATEKEEPER_QUEUE_UNALLOCATED = -(2 : Int) ^ 15 := by
  have hnd : sched.dedup.Nodup := List.nodup_dedup sched
  have hinv := alloc_run_inv Q sched.dedup hnd sched alloc_init
    (fun c hc => List.mem_dedup.2 hc)
    (by simp [alloc_init, alloc_held])
  have hres := alloc_results_eq Q (alloc_run Q sched alloc_init) sched.dedup
    (fun c hc => hdone c (List.mem_dedup.1 hc))
  have hlen : (alloc_run Q sched alloc_init).counter = sched.dedup.length := by
    have h1 := hinv.length_eq
    have h2 := congrArg List.length hres
    simp only [List.length_map, List.length_range] at h1 h2
    omega
  have hperm : ((sched.dedup).map (alloc_result Q (alloc_run Q sched alloc_init))).Perm
      ((List.range sched.dedup.length).map (alloc_outcome Q)) := by
    rw [hres, ← hlen]
    exact hinv.map _
  refine ⟨hperm, ?_, ?_, ?_, by decide⟩
  · intro hN
    have heq : (List.range sched.dedup.length).map (alloc_outcome Q) =
        (List.range sched.dedup.length).map some := by
      apply List.map_congr_left
      intro v hv
      have : v < Q := lt_of_lt_of_le (List.mem_range.1 hv) hN
      simp [alloc_outcome, this]
    rw [heq] at hperm
    refine ⟨hperm, hperm.nodup_iff.2 ?_⟩
    exact (List.nodup_range _).map (fun a b h => Option.some.inj h)
  · intro hN
    rw [hperm.countP_eq, hperm.countP_eq, (countP_outcome Q _).1, (countP_outcome Q _).2]
    exact ⟨by omega, rfl⟩
  · intro core hcore
    have := (alloc_run_other Q core sched alloc_init hcore).2
    simpa [get_queue_id, alloc_init] using this

/-- C10, for three cores and two queues, the second core overtaking the
first. -/
theorem queue_alloc_interleaving_witness :
    (([0, 1, 1, 2, 0, 2].dedup).map
        (alloc_result 2 (alloc_run 2 [0, 1, 1, 2, 0, 2] alloc_init))).Perm
      ((List.range [0, 1, 1, 2, 0, 2].dedup.length).map (alloc_outcome 2)) ∧
    ([0, 1, 1, 2, 0, 2].dedup.length ≤ 2 →
      (([0, 1, 1, 2, 0, 2].dedup).map
          (alloc_result 2 (alloc_run 2 [0, 1, 1, 2, 0, 2] alloc_init))).Perm
        ((List.range [0, 1, 1, 2, 0, 2].dedup.length).map some) ∧
      (([0, 1, 1, 2, 0, 2].dedup).map
          (alloc_result 2 (alloc_run 2 [0, 1, 1, 2, 0, 2] alloc_init))).Nodup) ∧
    (2 < [0, 1, 1, 2, 0, 2].dedup.length →
      (([0, 1, 1, 2, 0, 2].dedup).map
          (alloc_result 2 (alloc_run 2 [0, 1, 1, 2, 0, 2] alloc_init))).countP
        Option.isSome = 2 ∧
      (([0, 1, 1, 2, 0, 2].dedup).map
          (alloc_result 2 (alloc_run 2 [0, 1, 1, 2, 0, 2] alloc_init))).countP
        Option.isNone = [0, 1, 1, 2, 0, 2].dedup.length - 2) ∧
    (∀ core, core ∉ [0, 1, 1, 2, 0, 2] →
      get_queue_id (alloc_run 2 [0, 1, 1, 2, 0, 2] alloc_init) core =
        GATEKEEPER_QUEUE_UNALLOCATED) ∧
    GATEKEEPER_QUEUE_UNALLOCATED = -(2 : Int) ^ 15 :=
  queue_alloc_interleaving 2 [0, 1, 1, 2, 0, 2] (by decide)

/-! ### The return value of `gatekeeper_setup_rss` -/

/-- The result of `gatekeeper_setup_rss` for a table size the function
accepts and at least one queue, all of them inside the queue array (so that
the loop of net.c:239-247 neither divides by zero nor reads past the array), by
the answers of the update and of the query. -/
theorem setup_rss_result (env : Env) (portid : Nat) (queues : List Nat) (Q T : Nat)
    (tr : Trace) (hT1 : 1 ≤ T) (hT2 : T ≤ 512) (_hQ : 1 ≤ Q) (_hlen : Q ≤ queues.length)
    (hsize : (env tr (HwCall.rte_eth_dev_info_get portid)).out = T) :
    gatekeeper_setup_rss env portid queues Q tr =
      if reta_update_ret env portid queues Q T tr = -ENOTSUP ∨
          reta_update_ret env portid queues Q T tr = -EINVAL then
        (-1, tr ++ [HwCall.rte_eth_dev_info_get portid] ++
          [reta_update_call portid queues Q T])
      else
        ((if reta_query_ret env portid queues Q T tr = -ENOTSUP ∨
            reta_query_ret env portid queues Q T tr = -EINVAL then -1
          else reta_query_ret env portid queues Q T tr),
         tr ++ [HwCall.rte_eth_dev_info_get portid] ++
          [reta_update_call portid queues Q T] ++ [reta_query_call portid queues Q T]) := by
  have h0 : ¬ T = 0 := by omega
  have h512 : ¬ T > ETH_RSS_RETA_SIZE_512 := by simp only [ETH_RSS_RETA_SIZE_512]; omega
  simp only [gatekeeper_setup_rss, hsize, h0, h512, if_false, reta_update_ret,
    reta_query_ret, reta_update_call, reta_query_call]
  split_ifs <;> first | rfl | (exfalso; simp_all)

/-- C11 (as amended): for a table size the function accepts (`1 ≤ T ≤ 512`)
and `Q ≥ 1` queues given in an array of length at least `Q`, when the update
call returns `-ENOTSUP` or `-EINVAL`, `gatekeeper_setup_rss` returns `-1` and
does not call the read-back query.  For every other return value of the update
call, other negative values included, it calls the query and returns `-1` when
the query returns `-ENOTSUP` or `-EINVAL`, and the return value of the query
otherwise.  So it returns `0` only if the update returned neither `-ENOTSUP`
nor `-EINVAL` and the query returned `0`. -/
theorem setup_rss_install_errors (env : Env) (portid : Nat) (queues : List Nat) (Q T : Nat)
    (tr : Trace) (hT1 : 1 ≤ T) (hT2 : T ≤ 512) (hQ : 1 ≤ Q) (hlen : Q ≤ queues.length)
    (hsize : (env tr (HwCall.rte_eth_dev_info_get portid)).out = T) :
    (reta_update_ret env portid queues Q T tr = -ENOTSUP ∨
        reta_update_ret env portid queues Q T tr = -EINVAL →
      gatekeeper_setup_rss env portid queues Q tr =
        (-1, tr ++ [HwCall.rte_eth_dev_info_get portid] ++
          [reta_update_call portid queues Q T])) ∧
    (reta_update_ret env portid queues Q T tr ≠ -ENOTSUP →
      reta_update_ret env portid queues Q T tr ≠ -EINVAL →
      gatekeeper_setup_rss env portid queues Q tr =
        ((if reta_query_ret env portid queues Q T tr = -ENOTSUP ∨
            reta_query_ret env portid queues Q T tr = -EINVAL then -1
          else reta_query_ret env portid queues Q T tr),
         tr ++ [HwCall.rte_eth_dev_info_get portid] ++
          [reta_update_call portid queues Q T] ++ [reta_query_call portid queues Q T])) ∧
    ((gatekeeper_setup_rss env portid queues Q tr).1 = 0 →
      reta_update_ret env portid queues Q T tr ≠ -ENOTSUP ∧
      reta_update_ret env portid queues Q T tr ≠ -EINVAL ∧
      reta_query_ret env portid queues Q T tr = 0) := by
  have hres := setup_rss_result env portid queues Q T tr hT1 hT2 hQ hlen hsize
  refine ⟨?_, ?_, ?_⟩
  · intro hu
    rw [hres, if_pos hu]
  · intro h1 h2
    rw [hres, if_neg (by intro h; rcases h with h | h; exact h1 h; exact h2 h)]
  · intro h0
    rw [hres] at h0
    by_cases hu : reta_update_ret env portid queues Q T tr = -ENOTSUP ∨
        reta_update_ret env portid queues Q T tr = -EINVAL
    · rw [if_pos hu] at h0
      simp at h0
    · rw [if_neg hu] at h0
      refine ⟨fun h => hu (Or.inl h), fun h => hu (Or.inr h), ?_⟩
      by_cases hq : reta_query_ret env portid queues Q T tr = -ENOTSUP ∨
          reta_query_ret env portid queues Q T tr = -EINVAL
      · rw [if_pos hq] at h0
        simp at h0
      · rw [if_neg hq] at h0
        exact h0

/-- C11 as amended, on a machine where the update and the query both return
`0` for a table of 128 buckets spread over the queues 3, 5 and 7. -/
theorem setup_rss_install_errors_witness :
    (reta_update_ret env_ok 0 [3, 5, 7] 3 128 [] = -ENOTSUP ∨
        reta_update_ret env_ok 0 [3, 5, 7] 3 128 [] = -EINVAL →
      gatekeeper_setup_rss env_ok 0 [3, 5, 7] 3 [] =
        (-1, [] ++ [HwCall.rte_eth_dev_info_get 0] ++
          [reta_update_call 0 [3, 5, 7] 3 128])) ∧
    (reta_update_ret env_ok 0 [3, 5, 7] 3 128 [] ≠ -ENOTSUP →
      reta_update_ret env_ok 0 [3, 5, 7] 3 128 [] ≠ -EINVAL →
      gatekeeper_setup_rss env_ok 0 [3, 5, 7] 3 [] =
        ((if reta_query_ret env_ok 0 [3, 5, 7] 3 128 [] = -ENOTSUP ∨
            reta_query_ret env_ok 0 [3, 5, 7] 3 128 [] = -EINVAL then -1
          else reta_query_ret env_ok 0 [3, 5, 7] 3 128 []),
         [] ++ [HwCall.rte_eth_dev_info_get 0] ++
          [reta_update_call 0 [3, 5, 7] 3 128] ++ [reta_query_call 0 [3, 5, 7] 3 128])) ∧
    ((gatekeeper_setup_rss env_ok 0 [3, 5, 7] 3 []).1 = 0 →
      reta_update_ret env_ok 0 [3, 5, 7] 3 128 [] ≠ -ENOTSUP ∧
      reta_update_ret env_ok 0 [3, 5, 7] 3 128 [] ≠ -EINVAL ∧
      reta_query_ret env_ok 0 [3, 5, 7] 3 128 [] = 0) :=
  setup_rss_install_errors env_ok 0 [3, 5, 7] 3 128 [] (by decide) (by decide) (by decide)
    (by decide) (by decide)

/-- C11 as stated fails: for a table of 128 buckets and the three queues 3, 5
and 7, when the update call returns `-EIO` (`-5`) and the query returns `0`,
`gatekeeper_setup_rss` goes on to the query and returns `0`, the outcome of the
query. -/
theorem setup_rss_update_error_returns_success :
    reta_update_ret env_update_eio 0 [3, 5, 7] 3 128 [] = -5 ∧
    reta_query_ret env_update_eio 0 [3, 5, 7] 3 128 [] = 0 ∧
    gatekeeper_setup_rss env_update_eio 0 [3, 5, 7] 3 [] =
      (0, [HwCall.rte_eth_dev_info_get 0, reta_update_call 0 [3, 5, 7] 3 128,
        reta_query_call 0 [3, 5, 7] 3 128]) := by
  have hu : reta_update_ret env_update_eio 0 [3, 5, 7] 3 128 [] = -5 := rfl
  have hq : reta_query_ret env_update_eio 0 [3, 5, 7] 3 128 [] = 0 := rfl
  refine ⟨hu, hq, ?_⟩
  rw [setup_rss_result env_update_eio 0 [3, 5, 7] 3 128 [] (by decide) (by decide)
      (by decide) (by decide) rfl,
    hu, hq, if_neg (by decide), if_neg (by decide)]
  rfl

end Gatekeeper
